/-
Verification of the SECURITY PERIMETER subsystem (rate limiter, webhook
validator, access control, coordinating middleware) against its
natural-language specification.

The Python sources are shallowly embedded:
  * `src/security/rate_limiter/redis_rate_limiter.py`
      One Redis sorted set whose members are stringified timestamps with the
      timestamp as score is embedded as a `Finset ℚ` of timestamps (member
      `str(t)` and score `t` determine each other, so one set of timestamps
      carries the same information).  Float epoch seconds are embedded as ℚ.
      The per-key TTL (`expire`, garbage collection of abandoned keys) has no
      observable effect on any operation below besides deleting keys that the
      window pruning would empty anyway, and is not represented.
  * `src/security/rate_limiter/middleware.py`
      The per-principal state (primary window set, spam window set, block
      record with expiry, last-activity record) is a structure; the
      middleware body is a function from state and current time to an
      outcome and a new state, together with the number of
      `check_rate_limit` calls it performed.
  * `src/security/webhook_validator/signature_validator.py`
      JSON payloads are an inductive type; `json.dumps(payload,
      separators=(',', ':'), sort_keys=True)` is implemented over it;
      MD5, SHA-256 and HMAC-SHA-256 are implemented bit-faithfully on byte
      lists (machine words are `ℕ` reduced `% 2^32` where overflow matters).
  * `src/security/webhook_validator/ip_whitelist.py`
      Python's `ipaddress` textual forms are parsed by an executable parser
      covering dotted-quad IPv4 and grouped/`::`-compressed IPv6 including
      the trailing embedded dotted-quad form and `%zone` suffixes (the zone
      does not contribute to the address value, and membership ignores it,
      as in CPython).
  * `src/security/access_control/permissions.py`
      Roles and permissions are enumerations; the permission cache is an
      association list from user id to a `Finset Permission`; the database
      session is an optional role-lookup function whose failures are
      `Except` errors.

Exceptions (`try`/`except`) are embedded by making the fallible call an
explicit `Except`/`Option` value and translating each handler's fallback.
-/

import Mathlib

set_option maxRecDepth 40000

/-! # Rate limiter (`redis_rate_limiter.py`) -/

/-- `int()` of Python applied to a rational: truncation toward zero. -/
def pyInt (q : ℚ) : ℤ :=
  if 0 ≤ q then q.floor else -((-q).floor)

/-- `ZREMRANGEBYSCORE key 0 windowStart`: drop every entry whose score lies
in the inclusive range `[0, windowStart]`. -/
def prune (s : Finset ℚ) (windowStart : ℚ) : Finset ℚ :=
  s.filter (fun t => ¬(0 ≤ t ∧ t ≤ windowStart))

/-- Result triple of `RedisRateLimiter.check_rate_limit`. -/
structure CheckResult where
  allowed : Bool
  count : ℕ
  reset : ℤ
deriving DecidableEq

/-- `ZRANGE key 0 0 WITHSCORES` after the rejected entry was removed, turned
into `reset_time`; `window` when the set is empty. -/
def resetOf (s : Finset ℚ) (window : ℕ) (now : ℚ) : ℤ :=
  if h : s.Nonempty then pyInt ((window : ℚ) - (now - s.min' h)) else (window : ℤ)

/-- `RedisRateLimiter.check_rate_limit` on one key: prune the window, read
the cardinality, insert the current timestamp, and if the pre-insert count
reached the limit remove the entry again and report the reset hint. -/
def check_rate_limit (s : Finset ℚ) (limit window : ℕ) (now : ℚ) :
    CheckResult × Finset ℚ :=
  let pruned := prune s (now - (window : ℚ))
  if pruned.card < limit then
    (⟨true, pruned.card, (window : ℤ)⟩, insert now pruned)
  else
    let afterRem := (insert now pruned).erase now
    (⟨false, pruned.card, resetOf afterRem window now⟩, afterRem)

/-- `RedisRateLimiter.increment`: unconditional record, returns new count. -/
def increment (s : Finset ℚ) (now : ℚ) : ℕ × Finset ℚ :=
  let inserted := insert now s
  (inserted.card, inserted)

/-- The prune-and-count that `RedisRateLimiter.get_remaining` performs
before computing the remaining budget. -/
def getRemainingCount (s : Finset ℚ) (window : ℕ) (now : ℚ) : ℕ :=
  (prune s (now - (window : ℚ))).card

/-- `RedisRateLimiter.get_remaining`: prune, count, return
`max(0, limit - current_count)` and the pruned set. -/
def get_remaining (s : Finset ℚ) (limit window : ℕ) (now : ℚ) : ℤ × Finset ℚ :=
  let pruned := prune s (now - (window : ℚ))
  (max 0 ((limit : ℤ) - (pruned.card : ℤ)), pruned)

/-- The store state after firing `check_rate_limit` once per instant
`times 0, …, times (k-1)` against an initially empty key. -/
def runCalls (limit window : ℕ) (times : ℕ → ℚ) : ℕ → Finset ℚ
  | 0 => ∅
  | k + 1 => (check_rate_limit (runCalls limit window times k) limit window (times k)).2

/-! # Rate-limiting middleware (`middleware.py`) -/

/-- Constructor parameters of `RateLimitMiddleware`. -/
structure MWConfig where
  default_limit : ℕ
  default_window : ℕ
  spam_limit : ℕ
  spam_window : ℕ
  block_duration : ℕ
deriving DecidableEq

/-- The default constructor arguments of `RateLimitMiddleware`. -/
def defaultMWConfig : MWConfig := ⟨20, 60, 100, 3600, 3600⟩

/-- The per-principal slice of the shared store that the middleware touches:
the `user:{id}` window set, the `spam:{id}` window set, the `blocked:{id}`
record (as its expiry instant) and the `activity:{id}` hash (as the last
event type and truncated data). -/
structure MWState where
  userWin : Finset ℚ
  spamWin : Finset ℚ
  blockedUntil : Option ℚ
  activity : Option (String × String)
deriving DecidableEq

/-- Decision returned to the dispatcher for one event of this principal. -/
inductive MWOutcome where
  | proceed
  | blockedExisting
  | blockedNow
  | rateLimited (retryAfter : ℤ)
deriving DecidableEq

/-- `redis.exists` on the `blocked:{id}` key: the record is live while its
TTL has not elapsed. -/
def isBlocked (st : MWState) (now : ℚ) : Bool :=
  match st.blockedUntil with
  | some e => decide (now < e)
  | none => false

/-- `RateLimitMiddleware._block_user`: `SETEX` of the block record for
`block_duration` seconds. -/
def block_user (cfg : MWConfig) (st : MWState) (now : ℚ) : MWState :=
  { st with blockedUntil := some (now + (cfg.block_duration : ℚ)) }

/-- `RateLimitMiddleware._log_activity`: record the event type and the first
100 characters of its data. -/
def log_activity (st : MWState) (evType evData : String) : MWState :=
  { st with activity := some (evType, evData.take 100) }

/-- `RateLimitMiddleware.__call__` for an event of an identified principal:
outcome, new state, and the number of `check_rate_limit` calls made. -/
def middlewareCall (cfg : MWConfig) (st : MWState) (evType evData : String) (now : ℚ) :
    MWOutcome × MWState × ℕ :=
  if isBlocked st now then
    (MWOutcome.blockedExisting, st, 0)
  else
    let primary := check_rate_limit st.userWin cfg.default_limit cfg.default_window now
    if primary.1.allowed then
      (MWOutcome.proceed, log_activity { st with userWin := primary.2 } evType evData, 1)
    else
      let spam := check_rate_limit st.spamWin cfg.spam_limit cfg.spam_window now
      if spam.1.allowed then
        (MWOutcome.rateLimited primary.1.reset,
          { st with userWin := primary.2, spamWin := spam.2 }, 2)
      else
        (MWOutcome.blockedNow,
          block_user cfg { st with userWin := primary.2, spamWin := spam.2 } now, 2)

/-! # Access control (`permissions.py`) -/

/-- `Role` enumeration. -/
inductive Role where
  | USER
  | MODERATOR
  | ADMIN
  | SUPER_ADMIN
deriving DecidableEq

/-- `Permission` enumeration. -/
inductive Permission where
  | READ
  | WRITE
  | DELETE
  | MANAGE_USERS
  | BAN_USERS
  | VIEW_USER_DATA
  | MANAGE_SUBSCRIPTIONS
  | GRANT_SUBSCRIPTION
  | VIEW_PAYMENTS
  | MANAGE_PAYMENTS
  | REFUND_PAYMENTS
  | CREATE_PROMO
  | MANAGE_PROMO
  | MANAGE_ADS
  | VIEW_LOGS
  | MANAGE_SETTINGS
  | ACCESS_ADMIN_PANEL
  | SEND_BROADCAST
  | VIEW_STATISTICS
  | EXPORT_DATA
deriving DecidableEq, Fintype

/-- The `Role(role_str)` enum constructor: `none` when the string is not a
role value (Python raises `ValueError` there). -/
def roleOfString (s : String) : Option Role :=
  if s = "user" then some Role.USER
  else if s = "moderator" then some Role.MODERATOR
  else if s = "admin" then some Role.ADMIN
  else if s = "super_admin" then some Role.SUPER_ADMIN
  else none

/-- `ROLE_PERMISSIONS` table; `SUPER_ADMIN` maps to `set(Permission)`, the
whole permission universe. -/
def ROLE_PERMISSIONS : Role → Finset Permission
  | Role.USER => {Permission.READ}
  | Role.MODERATOR =>
      {Permission.READ, Permission.WRITE, Permission.VIEW_USER_DATA,
       Permission.VIEW_PAYMENTS, Permission.VIEW_STATISTICS, Permission.MANAGE_ADS}
  | Role.ADMIN =>
      {Permission.READ, Permission.WRITE, Permission.DELETE,
       Permission.MANAGE_USERS, Permission.BAN_USERS, Permission.VIEW_USER_DATA,
       Permission.MANAGE_SUBSCRIPTIONS, Permission.GRANT_SUBSCRIPTION,
       Permission.VIEW_PAYMENTS, Permission.MANAGE_PAYMENTS,
       Permission.CREATE_PROMO, Permission.MANAGE_PROMO, Permission.MANAGE_ADS,
       Permission.VIEW_LOGS, Permission.ACCESS_ADMIN_PANEL,
       Permission.SEND_BROADCAST, Permission.VIEW_STATISTICS}
  | Role.SUPER_ADMIN => Finset.univ

/-- The database session seen through `_get_user_role`: a per-user lookup of
the stored role string that may raise (`Except.error`) or find nothing. -/
def DBSession : Type := ℤ → Except Unit (Option String)

/-- `PermissionChecker`: optional DB session and the process-local
permission cache (a mapping from user id to resolved permission set). -/
structure PermissionChecker where
  db_session : Option DBSession
  cache : List (ℤ × Finset Permission)

/-- Lookup in the permission cache (`user_id in self._cache` plus read). -/
def cacheGet (c : List (ℤ × Finset Permission)) (uid : ℤ) : Option (Finset Permission) :=
  match c with
  | [] => none
  | (k, v) :: t => if k = uid then some v else cacheGet t uid

/-- `self._cache[user_id] = perms` (overwrite-or-add). -/
def cacheSet (c : List (ℤ × Finset Permission)) (uid : ℤ) (v : Finset Permission) :
    List (ℤ × Finset Permission) :=
  match c with
  | [] => [(uid, v)]
  | (k, w) :: t => if k = uid then (uid, v) :: t else (k, w) :: cacheSet t uid v

/-- `self._cache.pop(user_id, None)`. -/
def cachePop (c : List (ℤ × Finset Permission)) (uid : ℤ) :
    List (ℤ × Finset Permission) :=
  match c with
  | [] => []
  | (k, w) :: t => if k = uid then t else (k, w) :: cachePop t uid

/-- `PermissionChecker._get_user_role`: `USER` without a DB session; on a
successful lookup the parsed role, falling back to `USER` when the row is
absent, the stored string is falsy or not a valid role value
(`ValueError` caught), or the query raises. -/
def get_user_role (pc : PermissionChecker) (uid : ℤ) : Role :=
  match pc.db_session with
  | none => Role.USER
  | some db =>
    match db uid with
    | Except.error _ => Role.USER
    | Except.ok none => Role.USER
    | Except.ok (some s) =>
      if s = "" then Role.USER
      else
        match roleOfString s with
        | some r => r
        | none => Role.USER

/-- `PermissionChecker.has_permission` (result, updated checker).  The
`if not role` guard of the source never fires: every `Role` enum member is a
nonempty string and hence truthy. -/
def has_permission (pc : PermissionChecker) (uid : ℤ) (p : Permission)
    (use_cache : Bool) : Bool × PermissionChecker :=
  match use_cache, cacheGet pc.cache uid with
  | true, some perms => (decide (p ∈ perms), pc)
  | true, none =>
    let perms := ROLE_PERMISSIONS (get_user_role pc uid)
    (decide (p ∈ perms), { pc with cache := cacheSet pc.cache uid perms })
  | false, _ =>
    let perms := ROLE_PERMISSIONS (get_user_role pc uid)
    (decide (p ∈ perms), pc)

/-- `PermissionChecker.grant_permission`: seed the user's cache entry from
the role table when absent, then add the permission.  `_save_custom_permission`
is a stub in the source, so nothing can raise and the result is `True`. -/
def grant_permission (pc : PermissionChecker) (uid : ℤ) (p : Permission) :
    Bool × PermissionChecker :=
  let base :=
    match cacheGet pc.cache uid with
    | some s => s
    | none => ROLE_PERMISSIONS (get_user_role pc uid)
  (true, { pc with cache := cacheSet pc.cache uid (insert p base) })

/-- `PermissionChecker.revoke_permission`: discard from the cached set when
the user is cached; `_remove_custom_permission` is a stub. -/
def revoke_permission (pc : PermissionChecker) (uid : ℤ) (p : Permission) :
    Bool × PermissionChecker :=
  match cacheGet pc.cache uid with
  | some s => (true, { pc with cache := cacheSet pc.cache uid (s.erase p) })
  | none => (true, pc)

/-- `PermissionChecker.clear_cache`: Python truthiness of the optional id —
`None` and `0` both take the clear-everything branch. -/
def clear_cache (pc : PermissionChecker) (user_id : Option ℤ) : PermissionChecker :=
  match user_id with
  | some u =>
    if u = 0 then { pc with cache := [] }
    else { pc with cache := cachePop pc.cache u }
  | none => { pc with cache := [] }

/-- `check_rate_limit` including the `try`/`except` of the source: a store
fault produces the fail-open result `(True, 0, window)`. -/
def check_rate_limit_store (store : Except Unit (Finset ℚ)) (limit window : ℕ)
    (now : ℚ) : CheckResult × Except Unit (Finset ℚ) :=
  match store with
  | Except.error e => (⟨true, 0, (window : ℤ)⟩, Except.error e)
  | Except.ok s =>
    let r := check_rate_limit s limit window now
    (r.1, Except.ok r.2)

/-! # Byte strings and hash primitives used by `signature_validator.py`

`str.encode()` is UTF-8 encoding; MD5, SHA-256 and HMAC-SHA-256 are the
`hashlib`/`hmac` primitives, implemented here on byte lists with 32-bit
words represented as naturals reduced modulo `2 ^ 32`. -/

/-- Reduce to a 32-bit word. -/
def w32 (n : ℕ) : ℕ := n % 4294967296

/-- 32-bit modular addition. -/
def wadd (a b : ℕ) : ℕ := (a + b) % 4294967296

/-- 32-bit left rotation (the argument is a 32-bit word). -/
def rotl32 (x n : ℕ) : ℕ := w32 (x <<< n) ||| (w32 x >>> (32 - n))

/-- 32-bit right rotation. -/
def rotr32 (x n : ℕ) : ℕ := (w32 x >>> n) ||| w32 (x <<< (32 - n))

/-- 32-bit complement. -/
def not32 (x : ℕ) : ℕ := 4294967295 ^^^ w32 x

/-- UTF-8 encoding of one character. -/
def utf8Char (c : Char) : List ℕ :=
  let n := c.toNat
  if n < 128 then [n]
  else if n < 2048 then [192 ||| (n >>> 6), 128 ||| (n &&& 63)]
  else if n < 65536 then
    [224 ||| (n >>> 12), 128 ||| ((n >>> 6) &&& 63), 128 ||| (n &&& 63)]
  else
    [240 ||| (n >>> 18), 128 ||| ((n >>> 12) &&& 63),
     128 ||| ((n >>> 6) &&& 63), 128 ||| (n &&& 63)]

/-- `s.encode()`: UTF-8 bytes of a string. -/
def strBytes (s : String) : List ℕ := (s.data.map utf8Char).flatten

/-- Lowercase hexadecimal digit. -/
def hexDigitChar (n : ℕ) : Char :=
  if n < 10 then Char.ofNat (48 + n) else Char.ofNat (87 + n)

/-- `hexdigest()`: lowercase hex of a byte list. -/
def bytesToHex (bs : List ℕ) : String :=
  ⟨(bs.map (fun b => [hexDigitChar (b / 16 % 16), hexDigitChar (b % 16)])).flatten⟩

/-- Split into 64-byte blocks (fuel-indexed so that it reduces in the
kernel; the fuel is an upper bound on the number of blocks). -/
def chunks64Fuel : ℕ → List ℕ → List (List ℕ)
  | 0, _ => []
  | _, [] => []
  | fuel + 1, l => l.take 64 :: chunks64Fuel fuel (l.drop 64)

/-- Split a byte list into 64-byte blocks. -/
def chunks64 (l : List ℕ) : List (List ℕ) := chunks64Fuel l.length l

/-- Little-endian 32-bit words of a byte list. -/
def toWordsLE : List ℕ → List ℕ
  | b0 :: b1 :: b2 :: b3 :: rest =>
    (b0 + (b1 <<< 8) + (b2 <<< 16) + (b3 <<< 24)) :: toWordsLE rest
  | _ => []

/-- Big-endian 32-bit words of a byte list. -/
def toWordsBE : List ℕ → List ℕ
  | b0 :: b1 :: b2 :: b3 :: rest =>
    ((b0 <<< 24) + (b1 <<< 16) + (b2 <<< 8) + b3) :: toWordsBE rest
  | _ => []

/-- Little-endian bytes of a 32-bit word. -/
def wordLEBytes (w : ℕ) : List ℕ :=
  [w % 256, (w >>> 8) % 256, (w >>> 16) % 256, (w >>> 24) % 256]

/-- Big-endian bytes of a 32-bit word. -/
def wordBEBytes (w : ℕ) : List ℕ :=
  [(w >>> 24) % 256, (w >>> 16) % 256, (w >>> 8) % 256, w % 256]

/-- Little-endian 8-byte encoding (of the message bit length). -/
def lenBytesLE (n : ℕ) : List ℕ := (List.range 8).map (fun i => (n >>> (8 * i)) % 256)

/-- Big-endian 8-byte encoding (of the message bit length). -/
def lenBytesBE (n : ℕ) : List ℕ := ((List.range 8).map (fun i => (n >>> (8 * i)) % 256)).reverse

/-- Number of zero padding bytes for Merkle–Damgård padding to 56 mod 64. -/
def padZeros (len : ℕ) : ℕ := (119 - len % 64) % 64

/-- MD5 padding (little-endian length). -/
def md5Pad (msg : List ℕ) : List ℕ :=
  msg ++ [128] ++ List.replicate (padZeros msg.length) 0 ++ lenBytesLE (8 * msg.length)

/-- SHA-256 padding (big-endian length). -/
def sha256Pad (msg : List ℕ) : List ℕ :=
  msg ++ [128] ++ List.replicate (padZeros msg.length) 0 ++ lenBytesBE (8 * msg.length)

/-- MD5 round constants `floor(2^32 * abs(sin(i + 1)))`. -/
def md5K : List ℕ :=
  [3614090360, 3905402710, 606105819, 3250441966, 4118548399, 1200080426,
   2821735955, 4249261313, 1770035416, 2336552879, 4294925233, 2304563134,
   1804603682, 4254626195, 2792965006, 1236535329, 4129170786, 3225465664,
   643717713, 3921069994, 3593408605, 38016083, 3634488961, 3889429448,
   568446438, 3275163606, 4107603335, 1163531501, 2850285829, 4243563512,
   1735328473, 2368359562, 4294588738, 2272392833, 1839030562, 4259657740,
   2763975236, 1272893353, 4139469664, 3200236656, 681279174, 3936430074,
   3572445317, 76029189, 3654602809, 3873151461, 530742520, 3299628645,
   4096336452, 1126891415, 2878612391, 4237533241, 1700485571, 2399980690,
   4293915773, 2240044497, 1873313359, 4264355552, 2734768916, 1309151649,
   4149444226, 3174756917, 718787259, 3951481745]

/-- MD5 per-round left-rotation amounts. -/
def md5S : List ℕ :=
  [7, 12, 17, 22, 7, 12, 17, 22, 7, 12, 17, 22, 7, 12, 17, 22,
   5, 9, 14, 20, 5, 9, 14, 20, 5, 9, 14, 20, 5, 9, 14, 20,
   4, 11, 16, 23, 4, 11, 16, 23, 4, 11, 16, 23, 4, 11, 16, 23,
   6, 10, 15, 21, 6, 10, 15, 21, 6, 10, 15, 21, 6, 10, 15, 21]

/-- MD5 round mixing function. -/
def md5F (i b c d : ℕ) : ℕ :=
  if i < 16 then (b &&& c) ||| (not32 b &&& d)
  else if i < 32 then (d &&& b) ||| (not32 d &&& c)
  else if i < 48 then b ^^^ c ^^^ d
  else c ^^^ (b ||| not32 d)

/-- MD5 message-word index per round. -/
def md5g (i : ℕ) : ℕ :=
  if i < 16 then i
  else if i < 32 then (5 * i + 1) % 16
  else if i < 48 then (3 * i + 5) % 16
  else (7 * i) % 16

/-- One MD5 round on the `(A, B, C, D)` state. -/
def md5Round (M : List ℕ) (st : ℕ × ℕ × ℕ × ℕ) (i : ℕ) : ℕ × ℕ × ℕ × ℕ :=
  let f := w32 (md5F i st.2.1 st.2.2.1 st.2.2.2 + st.1 + md5K.getD i 0 + M.getD (md5g i) 0)
  (st.2.2.2, wadd st.2.1 (rotl32 f (md5S.getD i 0)), st.2.1, st.2.2.1)

/-- MD5 compression of one 64-byte block. -/
def md5Block (st : ℕ × ℕ × ℕ × ℕ) (block : List ℕ) : ℕ × ℕ × ℕ × ℕ :=
  let M := toWordsLE block
  let r := (List.range 64).foldl (md5Round M) st
  (wadd st.1 r.1, wadd st.2.1 r.2.1, wadd st.2.2.1 r.2.2.1, wadd st.2.2.2 r.2.2.2)

/-- `hashlib.md5(msg).digest()` as a byte list. -/
def md5Bytes (msg : List ℕ) : List ℕ :=
  let final := (chunks64 (md5Pad msg)).foldl md5Block
    (1732584193, 4023233417, 2562383102, 271733878)
  wordLEBytes final.1 ++ wordLEBytes final.2.1
    ++ wordLEBytes final.2.2.1 ++ wordLEBytes final.2.2.2

/-- `hashlib.md5(msg).hexdigest()`. -/
def md5Hex (msg : List ℕ) : String := bytesToHex (md5Bytes msg)

/-- SHA-256 round constants. -/
def sha256K : List ℕ :=
  [1116352408, 1899447441, 3049323471, 3921009573, 961987163, 1508970993,
   2453635748, 2870763221, 3624381080, 310598401, 607225278, 1426881987,
   1925078388, 2162078206, 2614888103, 3248222580, 3835390401, 4022224774,
   264347078, 604807628, 770255983, 1249150122, 1555081692, 1996064986,
   2554220882, 2821834349, 2952996808, 3210313671, 3336571891, 3584528711,
   113926993, 338241895, 666307205, 773529912, 1294757372, 1396182291,
   1695183700, 1986661051, 2177026350, 2456956037, 2730485921, 2820302411,
   3259730800, 3345764771, 3516065817, 3600352804, 4094571909, 275423344,
   430227734, 506948616, 659060556, 883997877, 958139571, 1322822218,
   1537002063, 1747873779, 1955562222, 2024104815, 2227730452, 2361852424,
   2428436474, 2756734187, 3204031479, 3329325298]

/-- SHA-256 big sigma 0. -/
def bsig0 (x : ℕ) : ℕ := rotr32 x 2 ^^^ rotr32 x 13 ^^^ rotr32 x 22

/-- SHA-256 big sigma 1. -/
def bsig1 (x : ℕ) : ℕ := rotr32 x 6 ^^^ rotr32 x 11 ^^^ rotr32 x 25

/-- SHA-256 small sigma 0. -/
def ssig0 (x : ℕ) : ℕ := rotr32 x 7 ^^^ rotr32 x 18 ^^^ (x >>> 3)

/-- SHA-256 small sigma 1. -/
def ssig1 (x : ℕ) : ℕ := rotr32 x 17 ^^^ rotr32 x 19 ^^^ (x >>> 10)

/-- SHA-256 message schedule: 64 words from the 16 block words. -/
def sha256Schedule (m : List ℕ) : List ℕ :=
  (List.range 64).foldl
    (fun w i =>
      if i < 16 then w ++ [m.getD i 0]
      else w ++ [w32 (ssig1 (w.getD (i - 2) 0) + w.getD (i - 7) 0
        + ssig0 (w.getD (i - 15) 0) + w.getD (i - 16) 0)])
    []

/-- One SHA-256 round on the 8-word state. -/
def sha256Round (wsch : List ℕ) (st : List ℕ) (i : ℕ) : List ℕ :=
  match st with
  | [a, b, c, d, e, f, g, h] =>
    let t1 := w32 (h + bsig1 e + ((e &&& f) ^^^ (not32 e &&& g))
      + sha256K.getD i 0 + wsch.getD i 0)
    let t2 := w32 (bsig0 a + ((a &&& b) ^^^ (a &&& c) ^^^ (b &&& c)))
    [wadd t1 t2, a, b, c, wadd d t1, e, f, g]
  | other => other

/-- SHA-256 initial state. -/
def sha256Init : List ℕ :=
  [1779033703, 3144134277, 1013904242, 2773480762, 1359893119, 2600822924,
   528734635, 1541459225]

/-- SHA-256 compression of one 64-byte block. -/
def sha256Block (st : List ℕ) (block : List ℕ) : List ℕ :=
  let wsch := sha256Schedule (toWordsBE block)
  let r := (List.range 64).foldl (sha256Round wsch) st
  List.zipWith wadd st r

/-- `hashlib.sha256(msg).digest()` as a byte list. -/
def sha256Bytes (msg : List ℕ) : List ℕ :=
  (((chunks64 (sha256Pad msg)).foldl sha256Block sha256Init).map wordBEBytes).flatten

/-- `hmac.new(key, msg, hashlib.sha256).digest()`. -/
def hmacSha256 (key msg : List ℕ) : List ℕ :=
  let k0 := if 64 < key.length then sha256Bytes key else key
  let kp := k0 ++ List.replicate (64 - k0.length) 0
  sha256Bytes ((kp.map (fun b => b ^^^ 92))
    ++ sha256Bytes ((kp.map (fun b => b ^^^ 54)) ++ msg))

/-- `hmac.new(key, msg, hashlib.sha256).hexdigest()`. -/
def hmacSha256Hex (key msg : List ℕ) : String := bytesToHex (hmacSha256 key msg)

/-! # JSON payloads and `json.dumps(..., separators=(',', ':'), sort_keys=True)` -/

mutual

/-- JSON values as `json` loads them (numbers restricted to integers; the
webhook payloads the validator handles carry integer timestamps and string
fields). -/
inductive Json where
  | null
  | bool (b : Bool)
  | num (n : ℤ)
  | str (s : String)
  | arr (xs : JsonList)
  | obj (kvs : JsonObj)

/-- A JSON array body. -/
inductive JsonList where
  | nil
  | cons (hd : Json) (tl : JsonList)

/-- A JSON object body: ordered key/value bindings. -/
inductive JsonObj where
  | nil
  | cons (k : String) (v : Json) (tl : JsonObj)

end

/-- A webhook payload: the JSON object `Dict[str, Any]` the validator
receives. -/
def Payload : Type := JsonObj

/-- `dict.get(key)`: first binding of the key, if any. -/
def pget (kvs : JsonObj) (k : String) : Option Json :=
  match kvs with
  | JsonObj.nil => none
  | JsonObj.cons k2 v t => if k2 = k then some v else pget t k

/-- Python truthiness of a JSON value. -/
def truthy : Json → Bool
  | Json.null => false
  | Json.bool b => b
  | Json.num n => decide (n ≠ 0)
  | Json.str s => decide (s ≠ "")
  | Json.arr JsonList.nil => false
  | Json.arr (JsonList.cons _ _) => true
  | Json.obj JsonObj.nil => false
  | Json.obj (JsonObj.cons _ _ _) => true

/-- `\uXXXX` hex quadruple (lowercase, as `json.dumps` emits). -/
def hex4 (n : ℕ) : List Char :=
  [hexDigitChar (n / 4096 % 16), hexDigitChar (n / 256 % 16),
   hexDigitChar (n / 16 % 16), hexDigitChar (n % 16)]

/-- One character escaped as `json.dumps` (default `ensure_ascii=True`)
writes it inside a string literal. -/
def jsonEscapeChar (c : Char) : List Char :=
  if c = '"' then ['\\', '"']
  else if c = '\\' then ['\\', '\\']
  else if c = '\n' then ['\\', 'n']
  else if c = '\r' then ['\\', 'r']
  else if c = '\t' then ['\\', 't']
  else if c.toNat = 8 then ['\\', 'b']
  else if c.toNat = 12 then ['\\', 'f']
  else if c.toNat < 32 then '\\' :: 'u' :: hex4 c.toNat
  else if c.toNat < 128 then [c]
  else if c.toNat < 65536 then '\\' :: 'u' :: hex4 c.toNat
  else
    ('\\' :: 'u' :: hex4 (55296 + (c.toNat - 65536) / 1024))
      ++ ('\\' :: 'u' :: hex4 (56320 + (c.toNat - 65536) % 1024))

/-- A JSON string literal with quotes and escapes. -/
def jsonQuote (s : String) : String :=
  "\"" ++ String.mk ((s.data.map jsonEscapeChar).flatten) ++ "\""

/-- Code-point lexicographic comparison, the order Python uses to compare
strings (and `sorted` uses on keys). -/
def charListLt : List Char → List Char → Bool
  | [], [] => false
  | [], _ :: _ => true
  | _ :: _, [] => false
  | c1 :: t1, c2 :: t2 =>
    if c1.toNat < c2.toNat then true
    else if c2.toNat < c1.toNat then false
    else charListLt t1 t2

/-- Code-point order on strings. -/
def strLt (a b : String) : Bool := charListLt a.data b.data

/-- Insert a binding into a key-sorted object body (code-point order, as
Python compares strings). -/
def insertByKey (k : String) (v : Json) : JsonObj → JsonObj
  | JsonObj.nil => JsonObj.cons k v JsonObj.nil
  | JsonObj.cons k2 v2 t =>
    if strLt k2 k then JsonObj.cons k2 v2 (insertByKey k v t)
    else JsonObj.cons k v (JsonObj.cons k2 v2 t)

mutual

/-- Recursively sort every object's bindings by key (`sort_keys=True`
applies at every nesting level). -/
def sortJson (j : Json) : Json :=
  match j with
  | Json.null => Json.null
  | Json.bool b => Json.bool b
  | Json.num n => Json.num n
  | Json.str s => Json.str s
  | Json.arr xs => Json.arr (sortJsonList xs)
  | Json.obj kvs => Json.obj (sortJsonObj kvs)
termination_by structural j

/-- `sortJson` on an array body. -/
def sortJsonList (l : JsonList) : JsonList :=
  match l with
  | JsonList.nil => JsonList.nil
  | JsonList.cons h t => JsonList.cons (sortJson h) (sortJsonList t)
termination_by structural l

/-- `sortJson` on an object body. -/
def sortJsonObj (o : JsonObj) : JsonObj :=
  match o with
  | JsonObj.nil => JsonObj.nil
  | JsonObj.cons k v t => insertByKey k (sortJson v) (sortJsonObj t)
termination_by structural o

end

mutual

/-- Serialize in stored order with separators `(',', ':')` and escaped
string literals. -/
def dumpsRaw (j : Json) : String :=
  match j with
  | Json.null => "null"
  | Json.bool true => "true"
  | Json.bool false => "false"
  | Json.num n => toString n
  | Json.str s => jsonQuote s
  | Json.arr xs => "[" ++ dumpsRawList xs ++ "]"
  | Json.obj kvs => "\x7b" ++ dumpsRawObj kvs ++ "\x7d"
termination_by structural j

/-- Comma-joined serialization of an array body. -/
def dumpsRawList (l : JsonList) : String :=
  match l with
  | JsonList.nil => ""
  | JsonList.cons h JsonList.nil => dumpsRaw h
  | JsonList.cons h (JsonList.cons h2 t) =>
    dumpsRaw h ++ "," ++ dumpsRawList (JsonList.cons h2 t)
termination_by structural l

/-- Comma-joined serialization of an object body. -/
def dumpsRawObj (o : JsonObj) : String :=
  match o with
  | JsonObj.nil => ""
  | JsonObj.cons k v JsonObj.nil => jsonQuote k ++ ":" ++ dumpsRaw v
  | JsonObj.cons k v (JsonObj.cons k2 v2 t) =>
    jsonQuote k ++ ":" ++ dumpsRaw v ++ "," ++ dumpsRawObj (JsonObj.cons k2 v2 t)
termination_by structural o

end

/-- `json.dumps(j, separators=(',', ':'), sort_keys=True)`. -/
def dumps (j : Json) : String := dumpsRaw (sortJson j)

/-- Python `str()` as an f-string renders it: identity on strings, decimal
integers, `True`/`False`, `None`; container reprs are approximated by their
canonical JSON (no payload handled by the theorems below puts a container
into a signed field). -/
def pyStr : Json → String
  | Json.str s => s
  | Json.num n => toString n
  | Json.bool true => "True"
  | Json.bool false => "False"
  | Json.null => "None"
  | Json.arr xs => dumps (Json.arr xs)
  | Json.obj kvs => dumps (Json.obj kvs)

/-- `str.lower()` (ASCII; every compared signature is hexadecimal). -/
def pyLower (s : String) : String := String.mk (s.data.map Char.toLower)

/-! # Signature validation (`signature_validator.py`) -/

/-- `hmac.compare_digest`: constant-time comparison; functionally,
string equality. -/
def compare_digest (a b : String) : Bool := a == b

/-- `self.replay_window` set in the constructor. -/
def replay_window : ℕ := 300

/-- `SignatureValidator._check_timestamp`: accept when
`abs(now - timestamp) <= replay_window`. -/
def check_timestamp (now t : ℤ) : Bool := decide ((now - t).natAbs ≤ replay_window)

/-- A payload value used where an `int` is expected: Python `bool` is an
`int` subclass; anything else raises `TypeError` in `abs(now - t)`. -/
def jsonIntValue : Json → Option ℤ
  | Json.num n => some n
  | Json.bool b => some (if b then 1 else 0)
  | _ => none

/-- The replay branch shared by `validate_cryptopay` and `validate_panel`:
true when no `timestamp` key exists, otherwise the `_check_timestamp`
verdict; a non-numeric timestamp raises and the handler turns that into a
rejection. -/
def tsOkay (payload : JsonObj) (now : ℤ) : Bool :=
  match pget payload "timestamp" with
  | none => true
  | some v =>
    match jsonIntValue v with
    | some t => check_timestamp now t
    | none => false

/-- `SignatureValidator.validate_yookassa`: HMAC-SHA256 over
`event & object-id & secret`, keyed by the secret. -/
def validate_yookassa (secrets : String → Option String)
    (payload : JsonObj) (signature : String) : Bool :=
  match secrets "yookassa" with
  | none => false
  | some secret =>
    if secret = "" then false
    else
      let event_type := (pget payload "event").getD Json.null
      let object_data := (pget payload "object").getD (Json.obj JsonObj.nil)
      match object_data with
      | Json.obj okvs =>
        let object_id := (pget okvs "id").getD Json.null
        if !truthy event_type || !truthy object_id then false
        else
          compare_digest signature
            (hmacSha256Hex (strBytes secret)
              (strBytes (pyStr event_type ++ "&" ++ pyStr object_id ++ "&" ++ secret)))
      | _ => false

/-- `SignatureValidator.validate_cryptopay`: HMAC-SHA256 of the canonical
JSON body, then the replay check, only if the signature matched. -/
def validate_cryptopay (secrets : String → Option String)
    (payload : JsonObj) (signature : String) (now : ℤ) : Bool :=
  match secrets "cryptopay" with
  | none => false
  | some secret =>
    if secret = "" then false
    else
      let expected := hmacSha256Hex (strBytes secret) (strBytes (dumps (Json.obj payload)))
      if compare_digest signature expected then tsOkay payload now else false

/-- `SignatureValidator.validate_freekassa`:
`MD5(MERCHANT_ID:AMOUNT:SECRET:MERCHANT_ORDER_ID)` compared
case-insensitively. -/
def validate_freekassa (secrets : String → Option String)
    (payload : JsonObj) (signature : String) : Bool :=
  match secrets "freekassa" with
  | none => false
  | some secret =>
    if secret = "" then false
    else
      let merchant_id := (pget payload "MERCHANT_ID").getD Json.null
      let amount := (pget payload "AMOUNT").getD Json.null
      let order_id := (pget payload "MERCHANT_ORDER_ID").getD Json.null
      if !truthy merchant_id || !truthy amount || !truthy order_id then false
      else
        compare_digest (pyLower signature)
          (pyLower (md5Hex (strBytes (pyStr merchant_id ++ ":" ++ pyStr amount
            ++ ":" ++ secret ++ ":" ++ pyStr order_id))))

/-- `SignatureValidator.validate_tribute`: HMAC-SHA256 of the canonical
JSON body. -/
def validate_tribute (secrets : String → Option String)
    (payload : JsonObj) (signature : String) : Bool :=
  match secrets "tribute" with
  | none => false
  | some secret =>
    if secret = "" then false
    else
      compare_digest signature
        (hmacSha256Hex (strBytes secret) (strBytes (dumps (Json.obj payload))))

/-- `SignatureValidator.validate_stars`: plain constant-time comparison of
the header token against the configured secret. -/
def validate_stars (secrets : String → Option String)
    (payload : JsonObj) (signature : String) : Bool :=
  match secrets "stars" with
  | none => false
  | some secret =>
    if secret = "" then false
    else compare_digest signature secret

/-- `SignatureValidator.validate_panel`: HMAC-SHA256 of the canonical JSON
body, then the replay check, only if the signature matched. -/
def validate_panel (secrets : String → Option String)
    (payload : JsonObj) (signature : String) (now : ℤ) : Bool :=
  match secrets "panel" with
  | none => false
  | some secret =>
    if secret = "" then false
    else
      let expected := hmacSha256Hex (strBytes secret) (strBytes (dumps (Json.obj payload)))
      if compare_digest signature expected then tsOkay payload now else false

/-- `SignatureValidator.validate`: dispatch on the lowercased provider
name; unknown providers are rejected. -/
def validate (secrets : String → Option String) (provider : String)
    (payload : JsonObj) (signature : String) (now : ℤ) : Bool :=
  let p := pyLower provider
  if p = "yookassa" then validate_yookassa secrets payload signature
  else if p = "cryptopay" then validate_cryptopay secrets payload signature now
  else if p = "freekassa" then validate_freekassa secrets payload signature
  else if p = "tribute" then validate_tribute secrets payload signature
  else if p = "stars" then validate_stars secrets payload signature
  else if p = "panel" then validate_panel secrets payload signature now
  else false

/-- The documented YooKassa recipe:
HMAC-SHA256 of `event & object-id & secret`, keyed by the secret. -/
def yookassaSignature (secret : String) (ev oid : Json) : String :=
  hmacSha256Hex (strBytes secret) (strBytes (pyStr ev ++ "&" ++ pyStr oid ++ "&" ++ secret))

/-- The documented canonical-JSON-body recipe shared by CryptoPay, Tribute
and the panel. -/
def canonicalBodySignature (secret : String) (payload : JsonObj) : String :=
  hmacSha256Hex (strBytes secret) (strBytes (dumps (Json.obj payload)))

/-- The documented FreeKassa recipe:
`MD5(MERCHANT_ID:AMOUNT:SECRET:MERCHANT_ORDER_ID)`. -/
def freekassaSignature (secret : String) (mid amount oid : Json) : String :=
  md5Hex (strBytes (pyStr mid ++ ":" ++ pyStr amount ++ ":" ++ secret ++ ":" ++ pyStr oid))

/-- Secret configuration used by the concrete FreeKassa counterexample. -/
def fkSecrets : String → Option String :=
  fun k => if k = "freekassa" then some "s" else none

/-- Payload used by the concrete FreeKassa counterexample. -/
def fkPayload : JsonObj :=
  JsonObj.cons "MERCHANT_ID" (Json.str "1")
    (JsonObj.cons "AMOUNT" (Json.str "100")
      (JsonObj.cons "MERCHANT_ORDER_ID" (Json.str "7") JsonObj.nil))

/-- Secrets for all six providers, used by the C5 and C7 witnesses. -/
def allSecrets : String → Option String := fun k =>
  if k = "yookassa" then some "ys"
  else if k = "cryptopay" then some "cs"
  else if k = "freekassa" then some "fs"
  else if k = "tribute" then some "ts"
  else if k = "stars" then some "ss"
  else if k = "panel" then some "ps"
  else none

/-- A well-formed YooKassa payload used by the C5 witness. -/
def ykPayload : JsonObj :=
  JsonObj.cons "event" (Json.str "payment.succeeded")
    (JsonObj.cons "object" (Json.obj (JsonObj.cons "id" (Json.str "42") JsonObj.nil))
      JsonObj.nil)

/-- Payload with a timestamp, used by the C7 witness. -/
def tsPayload (t : ℤ) : JsonObj := JsonObj.cons "timestamp" (Json.num t) JsonObj.nil

/-! # IP whitelist (`ip_whitelist.py`)

The textual address forms of Python's `ipaddress` module are parsed by an
executable parser: dotted-quad IPv4 (leading zeros rejected, as Python
does) and grouped IPv6 with at most one `::` compression, a trailing
embedded dotted-quad (`::ffff:8.8.8.8`, expanded into its two 16-bit
groups exactly as CPython expands `parts[-1]`), and an RFC 4007 `%zone`
suffix (stripped: it does not contribute to the address value and
`in network` ignores it, as CPython's `__contains__` compares `_ip`). -/

/-- Split a character list on a separator (Python `str.split(sep)`). -/
def splitChar (sep : Char) (l : List Char) : List (List Char) :=
  match l with
  | [] => [[]]
  | c :: t =>
    let r := splitChar sep t
    if c = sep then [] :: r
    else
      match r with
      | [] => [[c]]
      | h :: t2 => (c :: h) :: t2

/-- Decimal digit accumulator. -/
def parseDecDigits (l : List Char) (acc : ℕ) : Option ℕ :=
  match l with
  | [] => some acc
  | c :: t =>
    if 48 ≤ c.toNat ∧ c.toNat ≤ 57 then parseDecDigits t (acc * 10 + (c.toNat - 48))
    else none

/-- One IPv4 octet: 1–3 decimal digits, no leading zero, at most 255. -/
def parseOctet (l : List Char) : Option ℕ :=
  if l.isEmpty then none
  else if 3 < l.length then none
  else if 1 < l.length ∧ l.headD ' ' = '0' then none
  else
    match parseDecDigits l 0 with
    | none => none
    | some v => if v ≤ 255 then some v else none

/-- `IPv4Address(s)` as an integer, `none` on `ValueError`. -/
def ip_address_v4 (s : String) : Option ℕ :=
  match splitChar '.' s.data with
  | [a, b, c, d] =>
    match parseOctet a, parseOctet b, parseOctet c, parseOctet d with
    | some x, some y, some z, some w => some (((x * 256 + y) * 256 + z) * 256 + w)
    | _, _, _, _ => none
  | _ => none

/-- Hexadecimal digit value. -/
def hexVal (c : Char) : Option ℕ :=
  if 48 ≤ c.toNat ∧ c.toNat ≤ 57 then some (c.toNat - 48)
  else if 97 ≤ c.toNat ∧ c.toNat ≤ 102 then some (c.toNat - 87)
  else if 65 ≤ c.toNat ∧ c.toNat ≤ 70 then some (c.toNat - 55)
  else none

/-- Hexadecimal digit accumulator. -/
def parseHexDigits (l : List Char) (acc : ℕ) : Option ℕ :=
  match l with
  | [] => some acc
  | c :: t =>
    match hexVal c with
    | some d => parseHexDigits t (acc * 16 + d)
    | none => none

/-- One IPv6 group: 1–4 hexadecimal digits. -/
def parseHexGroup (l : List Char) : Option ℕ :=
  if l.isEmpty then none
  else if 4 < l.length then none
  else parseHexDigits l 0

/-- All groups of a colon-split list. -/
def parseGroups (parts : List (List Char)) : Option (List ℕ) :=
  match parts with
  | [] => some []
  | p :: t =>
    match parseHexGroup p, parseGroups t with
    | some v, some vs => some (v :: vs)
    | _, _ => none

/-- Split at the first `::`, if any. -/
def breakDoubleColon : List Char → Option (List Char × List Char)
  | [] => none
  | ':' :: ':' :: t => some ([], t)
  | c :: t =>
    match breakDoubleColon t with
    | some (l, r) => some (c :: l, r)
    | none => none

/-- 16-bit groups combined into one integer, most significant first. -/
def combineGroups (gs : List ℕ) : ℕ := gs.foldl (fun acc g => acc * 65536 + g) 0

/-- Strip an RFC 4007 `%zone` suffix: at most one `%`, nonempty zone; the
zone never contributes to the address value. -/
def splitZone (l : List Char) : Option (List Char) :=
  match splitChar '%' l with
  | [addr] => some addr
  | [addr, zone] => if zone.isEmpty then none else some addr
  | _ => none

/-- Groups of a colon-split list whose last part may be an embedded
dotted-quad IPv4 address, contributing its high and low 16-bit groups
(CPython expands `parts[-1]` exactly this way); a dotted part anywhere
else fails the hexadecimal parse, as in CPython. -/
def parseGroupsTail (parts : List (List Char)) : Option (List ℕ) :=
  match parts with
  | [] => some []
  | [p] =>
    if p.contains '.' then
      match ip_address_v4 (String.mk p) with
      | some v => some [(v >>> 16) &&& 65535, v &&& 65535]
      | none => none
    else
      match parseHexGroup p with
      | some v => some [v]
      | none => none
  | p :: t =>
    match parseHexGroup p, parseGroupsTail t with
    | some v, some vs => some (v :: vs)
    | _, _ => none

/-- `IPv6Address(s)` as an integer, `none` on `ValueError`: eight groups,
or fewer with a single `::` filling the gap with zero groups. -/
def ip_address_v6 (s : String) : Option ℕ :=
  match splitZone s.data with
  | none => none
  | some addr =>
    match breakDoubleColon addr with
    | none =>
      match parseGroupsTail (splitChar ':' addr) with
      | some gs => if gs.length = 8 then some (combineGroups gs) else none
      | none => none
    | some (lft, rgt) =>
      if (breakDoubleColon rgt).isSome then none
      else
        match (if lft.isEmpty then some [] else parseGroups (splitChar ':' lft)),
          (if rgt.isEmpty then some [] else parseGroupsTail (splitChar ':' rgt)) with
        | some a, some b =>
          if a.length + b.length ≤ 7 then
            some (combineGroups (a ++ List.replicate (8 - a.length - b.length) 0 ++ b))
          else none
        | _, _ => none

/-- A parsed address: version tag and integer value. -/
inductive IPAddr where
  | v4 (n : ℕ)
  | v6 (n : ℕ)
deriving DecidableEq

/-- `ipaddress.ip_address(s)`: IPv4 first, then IPv6, `ValueError`
becomes `none`. -/
def ip_address (s : String) : Option IPAddr :=
  match ip_address_v4 s with
  | some n => some (IPAddr.v4 n)
  | none =>
    match ip_address_v6 s with
    | some n => some (IPAddr.v6 n)
    | none => none

/-- A parsed network: version tag, masked network address, prefix length. -/
inductive IPNet where
  | v4 (net plen : ℕ)
  | v6 (net plen : ℕ)
deriving DecidableEq

/-- Clear the host bits (`strict=False` masks instead of raising). -/
def maskBits (addr bits plen : ℕ) : ℕ := (addr >>> (bits - plen)) <<< (bits - plen)

/-- `ipaddress.ip_network(s, strict=False)`. -/
def ip_network (s : String) : Option IPNet :=
  match splitChar '/' s.data with
  | [addr] =>
    match ip_address (String.mk addr) with
    | some (IPAddr.v4 n) => some (IPNet.v4 n 32)
    | some (IPAddr.v6 n) => some (IPNet.v6 n 128)
    | none => none
  | [addr, plen] =>
    match ip_address (String.mk addr), (if plen.isEmpty then none else parseDecDigits plen 0) with
    | some (IPAddr.v4 n), some p =>
      if p ≤ 32 then some (IPNet.v4 (maskBits n 32 p) p) else none
    | some (IPAddr.v6 n), some p =>
      if p ≤ 128 then some (IPNet.v6 (maskBits n 128 p) p) else none
    | _, _ => none
  | _ => none

/-- `ip in network`: versions agree and the masked address equals the
network address. -/
def ipInNet (ip : IPAddr) (net : IPNet) : Bool :=
  match ip, net with
  | IPAddr.v4 n, IPNet.v4 m p => decide ((n >>> (32 - p)) <<< (32 - p) = m)
  | IPAddr.v6 n, IPNet.v6 m p => decide ((n >>> (128 - p)) <<< (128 - p) = m)
  | _, _ => false

/-- `IPWhitelist.DEFAULT_WHITELISTS` verbatim. -/
def DEFAULT_WHITELISTS : List (String × List String) :=
  [("yookassa",
    ["185.71.76.0/27", "185.71.77.0/27", "77.75.153.0/25",
     "77.75.156.11", "77.75.156.35", "77.75.154.128/25"]),
   ("cryptopay", ["0.0.0.0/0"]),
   ("freekassa",
    ["168.119.157.136", "168.119.60.227", "138.201.88.124", "178.154.197.79"]),
   ("tribute", ["0.0.0.0/0"]),
   ("stars", ["149.154.160.0/20", "91.108.4.0/22"]),
   ("panel", ["127.0.0.1", "::1"])]

/-- `IPWhitelist._parse_ip_list`: parse each entry, skipping invalid ones
(the source logs and continues). -/
def _parse_ip_list (ips : List String) : List IPNet :=
  ips.foldr
    (fun s acc =>
      match ip_network s with
      | some n => n :: acc
      | none => acc)
    []

/-- The `IPWhitelist` instance state: provider name to parsed network set
(carried as a list; only membership is ever consulted). -/
structure IPWhitelist where
  whitelists : List (String × List IPNet)

/-- Dictionary read on the whitelist table. -/
def wlGet (w : List (String × List IPNet)) (p : String) : Option (List IPNet) :=
  match w with
  | [] => none
  | (k, v) :: t => if k = p then some v else wlGet t p

/-- Dictionary write on the whitelist table (overwrite-or-add). -/
def wlSet (w : List (String × List IPNet)) (p : String) (v : List IPNet) :
    List (String × List IPNet) :=
  match w with
  | [] => [(p, v)]
  | (k, v2) :: t => if k = p then (p, v) :: t else (k, v2) :: wlSet t p v

/-- `IPWhitelist.__init__` with no custom whitelists: the parsed defaults. -/
def defaultIPWhitelist : IPWhitelist :=
  ⟨DEFAULT_WHITELISTS.map (fun pw => (pw.1, _parse_ip_list pw.2))⟩

/-- `IPWhitelist.is_allowed`: unknown provider is rejected, an unparsable
address is rejected (`ValueError` caught), otherwise membership in any
configured network. -/
def is_allowed (wl : IPWhitelist) (provider ip_str : String) : Bool :=
  match wlGet wl.whitelists provider with
  | none => false
  | some nets =>
    match ip_address ip_str with
    | none => false
    | some ip => nets.any (fun net => ipInNet ip net)

/-- `IPWhitelist.disable_whitelist`: overwrite the provider's entry with
the two universal networks; always succeeds. -/
def disable_whitelist (wl : IPWhitelist) (provider : String) : Bool × IPWhitelist :=
  (true, ⟨wlSet wl.whitelists provider [IPNet.v4 0 0, IPNet.v6 0 0]⟩)

/-! # Theorems -/

section RateLimiterProofs

variable {limit window N : ℕ} {times : ℕ → ℚ}

/-- Every call instant of a positive strictly increasing burst is positive. -/
theorem times_pos (hmono : ∀ i j : ℕ, i < j → j < N → times i < times j)
    (ht0 : 0 < times 0) {i : ℕ} (hi : i < N) : 0 < times i := by
  rcases Nat.eq_zero_or_pos i with h0 | hpos
  · simpa [h0] using ht0
  · exact ht0.trans (hmono 0 i hpos hi)

/-- Within the burst, any two instants are less than one window apart. -/
theorem times_span (hmono : ∀ i j : ℕ, i < j → j < N → times i < times j)
    (hspan : times (N - 1) - times 0 < (window : ℚ))
    {i k : ℕ} (hik : i ≤ k) (hk : k < N) :
    times k - times i < (window : ℚ) := by
  have hkle : times k ≤ times (N - 1) := by
    rcases Nat.lt_or_ge k (N - 1) with h | h
    · exact le_of_lt (hmono k (N - 1) h (by omega))
    · have : k = N - 1 := le_antisymm (Nat.le_sub_one_of_lt hk) h
      simp [this]
  have h0le : times 0 ≤ times i := by
    rcases Nat.eq_zero_or_pos i with h0 | hpos
    · simp [h0]
    · exact le_of_lt (hmono 0 i hpos (lt_of_le_of_lt hik hk))
  linarith

/-- Invariant of the burst: after `k` calls the key holds exactly the
instants of the first `min k limit` calls (the allowed ones). -/
theorem runCalls_eq (hmono : ∀ i j : ℕ, i < j → j < N → times i < times j)
    (ht0 : 0 < times 0)
    (hspan : times (N - 1) - times 0 < (window : ℚ)) :
    ∀ k, k ≤ N →
      runCalls limit window times k = (Finset.range (min k limit)).image times := by
  intro k
  induction k with
  | zero => intro _; simp [runCalls]
  | succ k ih =>
    intro hk1
    have hkN : k < N := hk1
    have hs := ih (le_of_lt hkN)
    have hmem : ∀ x ∈ (Finset.range (min k limit)).image times,
        ¬(0 ≤ x ∧ x ≤ times k - (window : ℚ)) := by
      intro x hx
      rcases Finset.mem_image.mp hx with ⟨i, hi, rfl⟩
      have hi' : i < k := lt_of_lt_of_le (Finset.mem_range.mp hi) (min_le_left _ _)
      have := times_span hmono hspan (le_of_lt hi') hkN
      intro hcon
      linarith [hcon.2]
    have hprune : prune ((Finset.range (min k limit)).image times)
        (times k - (window : ℚ)) = (Finset.range (min k limit)).image times :=
      Finset.filter_true_of_mem hmem
    have hinj : Set.InjOn times (Finset.range (min k limit)) := by
      intro i hi j hj hij
      by_contra hne
      rcases Nat.lt_or_ge i j with h | h
      · have hjN : j < N :=
          lt_of_lt_of_le (lt_of_lt_of_le (Finset.mem_range.mp hj) (min_le_left _ _)) (le_of_lt hkN)
        exact absurd hij (ne_of_lt (hmono i j h hjN))
      · have h' : j < i := lt_of_le_of_ne h (Ne.symm hne)
        have hiN : i < N :=
          lt_of_lt_of_le (lt_of_lt_of_le (Finset.mem_range.mp hi) (min_le_left _ _)) (le_of_lt hkN)
        exact absurd hij.symm (ne_of_lt (hmono j i h' hiN))
    have hcard : ((Finset.range (min k limit)).image times).card = min k limit := by
      rw [Finset.card_image_of_injOn hinj, Finset.card_range]
    have hnotmem : times k ∉ (Finset.range (min k limit)).image times := by
      intro hmem'
      rcases Finset.mem_image.mp hmem' with ⟨i, hi, hie⟩
      have hi' : i < k := lt_of_lt_of_le (Finset.mem_range.mp hi) (min_le_left _ _)
      exact absurd hie (ne_of_lt (hmono i k hi' hkN))
    by_cases hall : min k limit < limit
    · have hk_lt : k < limit := by
        rcases Nat.lt_or_ge k limit with h | h
        · exact h
        · simp [min_eq_right h] at hall
      have hmin : min k limit = k := min_eq_left (le_of_lt hk_lt)
      have hmin' : min (k + 1) limit = k + 1 := min_eq_left hk_lt
      simp only [runCalls, hs, check_rate_limit, hprune, hcard]
      rw [if_pos hall]
      simp only [hmin, hmin']
      rw [Finset.range_succ, Finset.image_insert]
    · have hmin : min k limit = limit := by
        rcases Nat.lt_or_ge k limit with h | h
        · exact absurd (by simpa [min_eq_left (le_of_lt h)] using h) hall
        · exact min_eq_right h
      have hk_ge : limit ≤ k := by
        rcases Nat.lt_or_ge k limit with h | h
        · exact absurd (by simpa [min_eq_left (le_of_lt h)] using h) hall
        · exact h
      have hmin' : min (k + 1) limit = limit := min_eq_right (le_of_lt (Nat.lt_succ_of_le hk_ge))
      simp only [runCalls, hs, check_rate_limit, hprune, hcard]
      rw [if_neg hall]
      simp only [hmin, hmin']
      rw [Finset.erase_insert (by simpa [hmin] using hnotmem)]

/-- C1: firing `N > limit` calls of `check_rate_limit` in rapid succession
(strictly increasing positive timestamps, all within one window) against an
initially empty key allows exactly the first `limit` calls, and afterwards
the persisted entry count, as `get_remaining` observes it by pruning and
counting, equals `limit` and not `N`: each rejected call removed the entry
it had just inserted. -/
theorem c1_burst_allows_exactly_limit
    (limit window N : ℕ) (times : ℕ → ℚ)
    (hl : 0 < limit) (hw : 0 < window) (hN : limit < N)
    (ht0 : 0 < times 0)
    (hmono : ∀ i j : ℕ, i < j → j < N → times i < times j)
    (hspan : times (N - 1) - times 0 < (window : ℚ)) :
    (∀ k, k < N →
      (check_rate_limit (runCalls limit window times k) limit window (times k)).1.allowed
        = decide (k < limit))
    ∧ (runCalls limit window times N).card = limit
    ∧ getRemainingCount (runCalls limit window times N) window (times (N - 1)) = limit := by
  have hrun := @runCalls_eq limit window N times hmono ht0 hspan
  have hinjN : Set.InjOn times (Finset.range (min N limit)) := by
    intro i hi j hj hij
    by_contra hne
    rcases Nat.lt_or_ge i j with h | h
    · exact absurd hij
        (ne_of_lt (hmono i j h (lt_of_lt_of_le (Finset.mem_range.mp hj) (min_le_left _ _))))
    · have h' : j < i := lt_of_le_of_ne h (Ne.symm hne)
      exact absurd hij.symm
        (ne_of_lt (hmono j i h' (lt_of_lt_of_le (Finset.mem_range.mp hi) (min_le_left _ _))))
  have hminN : min N limit = limit := min_eq_right (le_of_lt hN)
  have hcardN : (runCalls limit window times N).card = limit := by
    rw [hrun N le_rfl, Finset.card_image_of_injOn hinjN, Finset.card_range, hminN]
  refine ⟨?_, hcardN, ?_⟩
  · intro k hk
    have hs := hrun k (le_of_lt hk)
    have hmem : ∀ x ∈ (Finset.range (min k limit)).image times,
        ¬(0 ≤ x ∧ x ≤ times k - (window : ℚ)) := by
      intro x hx
      rcases Finset.mem_image.mp hx with ⟨i, hi, rfl⟩
      have hi' : i < k := lt_of_lt_of_le (Finset.mem_range.mp hi) (min_le_left _ _)
      have := times_span hmono hspan (le_of_lt hi') hk
      intro hcon
      linarith [hcon.2]
    have hprune : prune ((Finset.range (min k limit)).image times)
        (times k - (window : ℚ)) = (Finset.range (min k limit)).image times :=
      Finset.filter_true_of_mem hmem
    have hinj : Set.InjOn times (Finset.range (min k limit)) := by
      intro i hi j hj hij
      by_contra hne
      rcases Nat.lt_or_ge i j with h | h
      · have hjN : j < N :=
          lt_of_lt_of_le (lt_of_lt_of_le (Finset.mem_range.mp hj) (min_le_left _ _)) (le_of_lt hk)
        exact absurd hij (ne_of_lt (hmono i j h hjN))
      · have h' : j < i := lt_of_le_of_ne h (Ne.symm hne)
        have hiN : i < N :=
          lt_of_lt_of_le (lt_of_lt_of_le (Finset.mem_range.mp hi) (min_le_left _ _)) (le_of_lt hk)
        exact absurd hij.symm (ne_of_lt (hmono j i h' hiN))
    have hcard : ((Finset.range (min k limit)).image times).card = min k limit := by
      rw [Finset.card_image_of_injOn hinj, Finset.card_range]
    have hiff : (min k limit < limit) ↔ (k < limit) := by
      constructor
      · intro h
        rcases Nat.lt_or_ge k limit with h' | h'
        · exact h'
        · simp [min_eq_right h'] at h
      · intro h
        simpa [min_eq_left (le_of_lt h)] using h
    by_cases hck : k < limit
    · simp [check_rate_limit, hs, hprune, hcard, hiff.mpr hck, hck]
    · have : ¬ min k limit < limit := fun h => hck (hiff.mp h)
      simp [check_rate_limit, hs, hprune, hcard, this, hck]
  · rw [hrun N le_rfl]
    unfold getRemainingCount
    have hmem : ∀ x ∈ (Finset.range (min N limit)).image times,
        ¬(0 ≤ x ∧ x ≤ times (N - 1) - (window : ℚ)) := by
      intro x hx
      rcases Finset.mem_image.mp hx with ⟨i, hi, rfl⟩
      have hi' : i < limit := by
        have := Finset.mem_range.mp hi
        simpa [hminN] using this
      have hiN1 : i ≤ N - 1 := Nat.le_sub_one_of_lt (lt_trans hi' hN)
      have hN1 : N - 1 < N := by omega
      have := times_span hmono hspan hiN1 hN1
      intro hcon
      linarith [hcon.2]
    have hprune : prune ((Finset.range (min N limit)).image times)
        (times (N - 1) - (window : ℚ)) = (Finset.range (min N limit)).image times :=
      Finset.filter_true_of_mem hmem
    rw [hprune, Finset.card_image_of_injOn hinjN, Finset.card_range, hminN]

end RateLimiterProofs

/-- Witness for C1 at `limit = 2`, `window = 10`, `N = 3` call instants
`1, 2, 3`: the third call is rejected and the persisted count stays `2`. -/
theorem c1_burst_allows_exactly_limit_witness :
    (runCalls 2 10 (fun i => (i : ℚ) + 1) 3).card = 2
    ∧ (check_rate_limit (runCalls 2 10 (fun i => (i : ℚ) + 1) 2) 2 10
        ((fun i => (i : ℚ) + 1) 2)).1.allowed = false := by
  have h := c1_burst_allows_exactly_limit 2 10 3 (fun i => (i : ℚ) + 1)
    (by norm_num) (by norm_num) (by norm_num) (by norm_num)
    (by
      intro i j hij _
      show (i : ℚ) + 1 < (j : ℚ) + 1
      have : (i : ℚ) < (j : ℚ) := by exact_mod_cast hij
      linarith)
    (by norm_num)
  refine ⟨h.2.1, ?_⟩
  have h2 := h.1 2 (by norm_num)
  simpa using h2

/-- C2 as stated is false: an allowed primary-window request proceeds to the
handler with the spam-window counter untouched (it stays at cardinality 0
instead of growing to 1); no `increment` of the spam key happens on the
allowed path. -/
theorem c2_counterexample :
    (middlewareCall defaultMWConfig ⟨∅, ∅, none, none⟩ "message" "hi" 1).1
      = MWOutcome.proceed
    ∧ (middlewareCall defaultMWConfig ⟨∅, ∅, none, none⟩ "message" "hi" 1).2.1.spamWin.card
      = 0 := by
  constructor <;>
    simp [middlewareCall, isBlocked, check_rate_limit, prune, log_activity, defaultMWConfig]

/-- C2 amended: a request whose primary-window check allows proceeds to the
handler and leaves the spam-window key untouched, as does a request
rejected by a live block record; the spam-window counter gains the current
instant only on a primary-rejected request — inserted by the spam-window
check itself and retained exactly when that check still allows: on the
`rateLimited` outcome the entry stays, on the `blockedNow` outcome the
check removes the entry it just inserted. -/
theorem c2_spam_key_only_on_rejection
    (cfg : MWConfig) (st : MWState) (evType evData : String) (now : ℚ) :
    ((middlewareCall cfg st evType evData now).1 = MWOutcome.proceed →
      (middlewareCall cfg st evType evData now).2.1.spamWin = st.spamWin)
    ∧ ((middlewareCall cfg st evType evData now).1 = MWOutcome.blockedExisting →
      (middlewareCall cfg st evType evData now).2.1.spamWin = st.spamWin)
    ∧ (∀ r : ℤ, (middlewareCall cfg st evType evData now).1 = MWOutcome.rateLimited r →
      (middlewareCall cfg st evType evData now).2.1.spamWin
        = insert now (prune st.spamWin (now - (cfg.spam_window : ℚ))))
    ∧ ((middlewareCall cfg st evType evData now).1 = MWOutcome.blockedNow →
      (middlewareCall cfg st evType evData now).2.1.spamWin
        = (insert now (prune st.spamWin (now - (cfg.spam_window : ℚ)))).erase now
      ∧ now ∉ (middlewareCall cfg st evType evData now).2.1.spamWin) := by
  unfold middlewareCall
  by_cases hb : isBlocked st now
  · simp [hb]
  · simp only [hb, Bool.false_eq_true, if_false]
    by_cases hp : (check_rate_limit st.userWin cfg.default_limit cfg.default_window now).1.allowed
    · simp [hp, log_activity]
    · by_cases hsp : (check_rate_limit st.spamWin cfg.spam_limit cfg.spam_window now).1.allowed
      · refine ⟨by simp [hp, hsp], by simp [hp, hsp], ?_, by simp [hp, hsp]⟩
        intro r _
        simp only [hp, hsp, Bool.false_eq_true, if_false, if_true]
        have hins : (check_rate_limit st.spamWin cfg.spam_limit cfg.spam_window now).2
            = insert now (prune st.spamWin (now - (cfg.spam_window : ℚ))) := by
          unfold check_rate_limit
          have : (prune st.spamWin (now - (cfg.spam_window : ℚ))).card < cfg.spam_limit := by
            by_contra hcon
            unfold check_rate_limit at hsp
            simp [hcon] at hsp
          simp [this]
        simp [hins]
      · refine ⟨by simp [hp, hsp], by simp [hp, hsp], by simp [hp, hsp], ?_⟩
        intro _
        simp only [hp, hsp, Bool.false_eq_true, if_false]
        have hrem : (check_rate_limit st.spamWin cfg.spam_limit cfg.spam_window now).2
            = (insert now (prune st.spamWin (now - (cfg.spam_window : ℚ)))).erase now := by
          unfold check_rate_limit
          have : ¬ (prune st.spamWin (now - (cfg.spam_window : ℚ))).card < cfg.spam_limit := by
            intro hcon
            unfold check_rate_limit at hsp
            simp [hcon] at hsp
          simp [this]
        constructor
        · simp [block_user, hrem]
        · simp [block_user, hrem, Finset.not_mem_erase]

/-- Witness for the amended C2: one allowed request from a fresh principal
leaves the spam-window set empty, and a doubly-rejected request (both
limits zero) also leaves it empty — the spam check removed the entry it
had just inserted. -/
theorem c2_spam_key_only_on_rejection_witness :
    (middlewareCall defaultMWConfig ⟨∅, ∅, none, none⟩ "message" "hi" 1).2.1.spamWin
      = (∅ : Finset ℚ)
    ∧ (middlewareCall ⟨0, 60, 0, 3600, 3600⟩ ⟨∅, ∅, none, none⟩ "message" "hi" 1).2.1.spamWin
      = (∅ : Finset ℚ)
    ∧ (1 : ℚ) ∉ (middlewareCall ⟨0, 60, 0, 3600, 3600⟩
        ⟨∅, ∅, none, none⟩ "message" "hi" 1).2.1.spamWin := by
  have h1 := (c2_spam_key_only_on_rejection defaultMWConfig ⟨∅, ∅, none, none⟩
      "message" "hi" 1).1
    (by simp [middlewareCall, isBlocked, check_rate_limit, prune, log_activity, defaultMWConfig])
  have h2 := (c2_spam_key_only_on_rejection ⟨0, 60, 0, 3600, 3600⟩ ⟨∅, ∅, none, none⟩
      "message" "hi" 1).2.2.2
    (by simp [middlewareCall, isBlocked, check_rate_limit, prune, block_user])
  exact ⟨by simpa using h1, h2.1.trans (by decide), h2.2⟩

/-- C3: if the primary check disallows then (a) when the spam-window check
also disallows, a block record expiring `block_duration` seconds from now is
written and the outcome is `blockedNow`; (b) when the spam check still
allows, the outcome is `rateLimited` carrying the primary check's reset
hint; and (c) while a live block record exists the call returns the
`blockedExisting` outcome with the state unchanged and zero
`check_rate_limit` calls. -/
theorem c3_escalation_and_block
    (cfg : MWConfig) (st : MWState) (evType evData : String) (now : ℚ) :
    (isBlocked st now = true →
      middlewareCall cfg st evType evData now = (MWOutcome.blockedExisting, st, 0))
    ∧ (isBlocked st now = false →
        (check_rate_limit st.userWin cfg.default_limit cfg.default_window now).1.allowed = false →
        ((check_rate_limit st.spamWin cfg.spam_limit cfg.spam_window now).1.allowed = false →
          (middlewareCall cfg st evType evData now).1 = MWOutcome.blockedNow
          ∧ (middlewareCall cfg st evType evData now).2.1.blockedUntil
              = some (now + (cfg.block_duration : ℚ)))
        ∧ ((check_rate_limit st.spamWin cfg.spam_limit cfg.spam_window now).1.allowed = true →
          (middlewareCall cfg st evType evData now).1
            = MWOutcome.rateLimited
                (check_rate_limit st.userWin cfg.default_limit cfg.default_window now).1.reset)) := by
  refine ⟨fun hb => by simp [middlewareCall, hb], fun hb hp => ⟨fun hsp => ?_, fun hsp => ?_⟩⟩
  · constructor <;> simp [middlewareCall, hb, hp, hsp, block_user]
  · simp [middlewareCall, hb, hp, hsp]

/-- Witness for C3 exercising all three branches: a live block record is
honoured without touching the state; a doubly-exceeded fresh principal is
blocked for `block_duration = 3600` seconds; a primary-only rejection is
rate-limited with the primary reset hint (the full window, 60 s, here). -/
theorem c3_escalation_and_block_witness :
    middlewareCall defaultMWConfig ⟨∅, ∅, some 10, none⟩ "message" "hi" 5
      = (MWOutcome.blockedExisting, ⟨∅, ∅, some 10, none⟩, 0)
    ∧ (middlewareCall ⟨0, 60, 0, 3600, 3600⟩ ⟨∅, ∅, none, none⟩ "message" "hi" 1).1
      = MWOutcome.blockedNow
    ∧ (middlewareCall ⟨0, 60, 0, 3600, 3600⟩ ⟨∅, ∅, none, none⟩ "message" "hi" 1).2.1.blockedUntil
      = some 3601
    ∧ (middlewareCall ⟨0, 60, 100, 3600, 3600⟩ ⟨∅, ∅, none, none⟩ "message" "hi" 1).1
      = MWOutcome.rateLimited 60 := by
  have h1 := (c3_escalation_and_block defaultMWConfig ⟨∅, ∅, some 10, none⟩ "message" "hi" 5).1
    (by simp [isBlocked]; norm_num)
  have h2 := ((c3_escalation_and_block ⟨0, 60, 0, 3600, 3600⟩ ⟨∅, ∅, none, none⟩
      "message" "hi" 1).2
    (by simp [isBlocked])
    (by simp [check_rate_limit, prune])).1
    (by simp [check_rate_limit, prune])
  have h3 := ((c3_escalation_and_block ⟨0, 60, 100, 3600, 3600⟩ ⟨∅, ∅, none, none⟩
      "message" "hi" 1).2
    (by simp [isBlocked])
    (by simp [check_rate_limit, prune])).2
    (by simp [check_rate_limit, prune])
  refine ⟨h1, h2.1, ?_, ?_⟩
  · rw [h2.2]
    norm_num
  · rw [h3]
    have : (check_rate_limit (∅ : Finset ℚ) 0 60 1).1.reset = 60 := by
      simp [check_rate_limit, prune, resetOf]
    rw [this]

/-- C4: opposite failure directions — a backing-store error makes
`check_rate_limit` fail open with `(allowed = true, count = 0,
reset = window)` for every input, while the role lookup fails closed to the
lowest-privilege role `USER` for every principal whenever the session is
missing, the lookup raises, or the principal is absent. -/
theorem c4_fail_open_fail_closed :
    (∀ (limit window : ℕ) (now : ℚ),
      (check_rate_limit_store (Except.error ()) limit window now).1
        = ⟨true, 0, (window : ℤ)⟩)
    ∧ (∀ (c : List (ℤ × Finset Permission)) (uid : ℤ),
        get_user_role ⟨none, c⟩ uid = Role.USER)
    ∧ (∀ (db : DBSession) (c : List (ℤ × Finset Permission)) (uid : ℤ),
        db uid = Except.error () →
        get_user_role ⟨some db, c⟩ uid = Role.USER)
    ∧ (∀ (db : DBSession) (c : List (ℤ × Finset Permission)) (uid : ℤ),
        db uid = Except.ok none →
        get_user_role ⟨some db, c⟩ uid = Role.USER) := by
  refine ⟨fun limit window now => rfl, fun c uid => rfl, ?_, ?_⟩
  · intro db c uid h
    simp [get_user_role, h]
  · intro db c uid h
    simp [get_user_role, h]

/-- Witness for C4: a raising session and an absent principal both resolve
to `USER`, and an erroring store check fails open at `limit = 5`,
`window = 60`. -/
theorem c4_fail_open_fail_closed_witness :
    (check_rate_limit_store (Except.error ()) 5 60 1).1 = ⟨true, 0, 60⟩
    ∧ get_user_role ⟨some (fun _ => Except.error ()), []⟩ 7 = Role.USER
    ∧ get_user_role ⟨some (fun _ => Except.ok none), []⟩ 7 = Role.USER := by
  refine ⟨c4_fail_open_fail_closed.1 5 60 1, ?_, ?_⟩
  · exact c4_fail_open_fail_closed.2.2.1 (fun _ => Except.error ()) [] 7 rfl
  · exact c4_fail_open_fail_closed.2.2.2 (fun _ => Except.ok none) [] 7 rfl

section CacheLemmas

/-- Reading back the entry just written. -/
theorem cacheGet_cacheSet_self (c : List (ℤ × Finset Permission)) (uid : ℤ)
    (v : Finset Permission) : cacheGet (cacheSet c uid v) uid = some v := by
  induction c with
  | nil => simp [cacheSet, cacheGet]
  | cons h t ih =>
    obtain ⟨k, w⟩ := h
    by_cases hk : k = uid
    · simp [cacheSet, cacheGet, hk]
    · simp [cacheSet, cacheGet, hk, ih]

/-- Writing one user's entry leaves every other user's entry unchanged. -/
theorem cacheGet_cacheSet_ne (c : List (ℤ × Finset Permission)) (uid other : ℤ)
    (v : Finset Permission) (h : other ≠ uid) :
    cacheGet (cacheSet c uid v) other = cacheGet c other := by
  induction c with
  | nil => simp [cacheSet, cacheGet, Ne.symm h]
  | cons hd t ih =>
    obtain ⟨k, w⟩ := hd
    by_cases hk : k = uid
    · subst hk
      simp [cacheSet, cacheGet, Ne.symm h]
    · by_cases hko : k = other
      · simp [cacheSet, cacheGet, hk, hko, h]
      · simp [cacheSet, cacheGet, hk, hko, ih]

/-- Popping one user's entry leaves every other user's entry unchanged. -/
theorem cacheGet_cachePop_ne (c : List (ℤ × Finset Permission)) (uid other : ℤ)
    (h : other ≠ uid) :
    cacheGet (cachePop c uid) other = cacheGet c other := by
  induction c with
  | nil => simp [cachePop, cacheGet]
  | cons hd t ih =>
    obtain ⟨k, w⟩ := hd
    by_cases hk : k = uid
    · subst hk
      simp [cachePop, cacheGet, Ne.symm h]
    · by_cases hko : k = other
      · simp [cachePop, cacheGet, hk, hko, h]
      · simp [cachePop, cacheGet, hk, hko, ih]

/-- `_get_user_role` reads only the DB session, never the cache. -/
theorem get_user_role_cache_independent (db : Option DBSession)
    (c1 c2 : List (ℤ × Finset Permission)) (uid : ℤ) :
    get_user_role ⟨db, c1⟩ uid = get_user_role ⟨db, c2⟩ uid := by
  unfold get_user_role
  rfl

end CacheLemmas

/-- C8: for a principal whose role resolves to `MODERATOR` and who is not
yet cached: `has_permission` is true for `VIEW_PAYMENTS` and false for
`MANAGE_USERS`; after `grant_permission(MANAGE_USERS)` it is true
immediately while the resolved role is unchanged; after
`revoke_permission` it is false again; and clearing the cache of a
different (nonzero) principal leaves this principal's cached resolved set
untouched. -/
theorem c8_moderator_grant_revoke_isolation
    (db : DBSession) (c : List (ℤ × Finset Permission)) (uid other : ℤ)
    (hrole : get_user_role ⟨some db, c⟩ uid = Role.MODERATOR)
    (hmiss : cacheGet c uid = none)
    (hne : other ≠ uid) (hnz : other ≠ 0) :
    (has_permission ⟨some db, c⟩ uid Permission.VIEW_PAYMENTS true).1 = true
    ∧ ((has_permission ⟨some db, c⟩ uid Permission.MANAGE_USERS true).1 = false)
    ∧ (let pc1 := (has_permission ⟨some db, c⟩ uid Permission.VIEW_PAYMENTS true).2
       let pc2 := (grant_permission pc1 uid Permission.MANAGE_USERS).2
       (has_permission pc2 uid Permission.MANAGE_USERS true).1 = true
       ∧ get_user_role pc2 uid = Role.MODERATOR
       ∧ (let pc3 := (revoke_permission pc2 uid Permission.MANAGE_USERS).2
          (has_permission pc3 uid Permission.MANAGE_USERS true).1 = false
          ∧ cacheGet (clear_cache pc3 (some other)).cache uid
              = cacheGet pc3.cache uid)) := by
  have hc1 : (has_permission ⟨some db, c⟩ uid Permission.VIEW_PAYMENTS true).2
      = ⟨some db, cacheSet c uid (ROLE_PERMISSIONS Role.MODERATOR)⟩ := by
    simp [has_permission, hmiss, hrole]
  have hget1 : cacheGet (cacheSet c uid (ROLE_PERMISSIONS Role.MODERATOR)) uid
      = some (ROLE_PERMISSIONS Role.MODERATOR) := cacheGet_cacheSet_self _ _ _
  have hc2 : (grant_permission
      ⟨some db, cacheSet c uid (ROLE_PERMISSIONS Role.MODERATOR)⟩ uid
      Permission.MANAGE_USERS).2
      = ⟨some db, cacheSet (cacheSet c uid (ROLE_PERMISSIONS Role.MODERATOR)) uid
          (insert Permission.MANAGE_USERS (ROLE_PERMISSIONS Role.MODERATOR))⟩ := by
    simp [grant_permission, hget1]
  have hget2 : cacheGet (cacheSet (cacheSet c uid (ROLE_PERMISSIONS Role.MODERATOR)) uid
      (insert Permission.MANAGE_USERS (ROLE_PERMISSIONS Role.MODERATOR))) uid
      = some (insert Permission.MANAGE_USERS (ROLE_PERMISSIONS Role.MODERATOR)) :=
    cacheGet_cacheSet_self _ _ _
  have hc3 : (revoke_permission
      ⟨some db, cacheSet (cacheSet c uid (ROLE_PERMISSIONS Role.MODERATOR)) uid
        (insert Permission.MANAGE_USERS (ROLE_PERMISSIONS Role.MODERATOR))⟩ uid
      Permission.MANAGE_USERS).2
      = ⟨some db, cacheSet (cacheSet (cacheSet c uid (ROLE_PERMISSIONS Role.MODERATOR)) uid
          (insert Permission.MANAGE_USERS (ROLE_PERMISSIONS Role.MODERATOR))) uid
          ((insert Permission.MANAGE_USERS (ROLE_PERMISSIONS Role.MODERATOR)).erase
            Permission.MANAGE_USERS)⟩ := by
    simp [revoke_permission, hget2]
  have hget3 := cacheGet_cacheSet_self
    (cacheSet (cacheSet c uid (ROLE_PERMISSIONS Role.MODERATOR)) uid
      (insert Permission.MANAGE_USERS (ROLE_PERMISSIONS Role.MODERATOR))) uid
    ((insert Permission.MANAGE_USERS (ROLE_PERMISSIONS Role.MODERATOR)).erase
      Permission.MANAGE_USERS)
  refine ⟨?_, ?_, ?_⟩
  · simp only [has_permission, hmiss]
    rw [hrole]
    decide
  · simp only [has_permission, hmiss]
    rw [hrole]
    decide
  · simp only [hc1, hc2, hc3]
    refine ⟨?_, ?_, ?_, ?_⟩
    · simp [has_permission, hget2]
    · exact (get_user_role_cache_independent (some db) _ c uid).trans hrole
    · simp only [has_permission]
      rw [hget3]
      simp [Finset.not_mem_erase]
    · simp only [clear_cache, if_neg hnz]
      exact cacheGet_cachePop_ne _ other uid (Ne.symm hne)

/-- Witness for C8 with a session resolving user 42 to `moderator`, an
empty cache, and unrelated principal 7. -/
theorem c8_moderator_grant_revoke_isolation_witness :
    (has_permission ⟨some (fun _ => Except.ok (some "moderator")), []⟩ 42
      Permission.VIEW_PAYMENTS true).1 = true
    ∧ (has_permission ⟨some (fun _ => Except.ok (some "moderator")), []⟩ 42
      Permission.MANAGE_USERS true).1 = false := by
  have h := c8_moderator_grant_revoke_isolation
    (fun _ => Except.ok (some "moderator")) [] 42 7
    (by simp [get_user_role, roleOfString])
    rfl
    (by norm_num) (by norm_num)
  exact ⟨h.1, h.2.1⟩

/-- C10: because the per-principal branch of `clear_cache` is guarded by
Python truthiness, principal id `0` clears the whole cache, while every
nonzero id removes only that principal's entry. -/
theorem c10_clear_cache_zero_clears_all (pc : PermissionChecker) :
    (clear_cache pc (some 0)).cache = []
    ∧ ∀ u : ℤ, u ≠ 0 → (clear_cache pc (some u)).cache = cachePop pc.cache u := by
  refine ⟨by simp [clear_cache], fun u hu => by simp [clear_cache, hu]⟩

/-- Witness for C10 on a two-entry cache: id `0` erases both entries, id `3`
pops only its own. -/
theorem c10_clear_cache_zero_clears_all_witness :
    (clear_cache ⟨none, [(3, {Permission.READ}), (5, {Permission.WRITE})]⟩ (some 0)).cache = []
    ∧ (clear_cache ⟨none, [(3, {Permission.READ}), (5, {Permission.WRITE})]⟩ (some 3)).cache
      = [(5, {Permission.WRITE})] := by
  refine ⟨(c10_clear_cache_zero_clears_all _).1, ?_⟩
  have h := (c10_clear_cache_zero_clears_all
    ⟨none, [(3, {Permission.READ}), (5, {Permission.WRITE})]⟩).2 3 (by norm_num)
  rw [h]
  simp [cachePop]

/-- Implementation check against the RFC 1321 test vector for "abc". -/
theorem md5Hex_abc : md5Hex (strBytes "abc") = "900150983cd24fb0d6963f7d28e17f72" := by
  decide

/-- Implementation check against the FIPS 180 test vector for "abc". -/
theorem sha256Hex_abc :
    bytesToHex (sha256Bytes (strBytes "abc"))
      = "ba7816bf8f01cfea414140de5dae2223b00361a396177a9cb410ff61f20015ad" := by
  decide

/-- Implementation check against the RFC 4231-style HMAC-SHA256 vector. -/
theorem hmacSha256Hex_quickfox :
    hmacSha256Hex (strBytes "key") (strBytes "The quick brown fox jumps over the lazy dog")
      = "f7bc83f430538424b13298e6aa6fb143ef4d59a14946175997479dbc2d1a3cd8" := by
  decide

section ValidatorDispatch

/-- Dispatch of `validate` for the literal provider name `yookassa`. -/
theorem validate_dispatch_yookassa (secrets : String → Option String)
    (payload : JsonObj) (sig : String) (now : ℤ) :
    validate secrets "yookassa" payload sig now = validate_yookassa secrets payload sig := rfl

/-- Dispatch of `validate` for the literal provider name `cryptopay`. -/
theorem validate_dispatch_cryptopay (secrets : String → Option String)
    (payload : JsonObj) (sig : String) (now : ℤ) :
    validate secrets "cryptopay" payload sig now = validate_cryptopay secrets payload sig now := rfl

/-- Dispatch of `validate` for the literal provider name `freekassa`. -/
theorem validate_dispatch_freekassa (secrets : String → Option String)
    (payload : JsonObj) (sig : String) (now : ℤ) :
    validate secrets "freekassa" payload sig now = validate_freekassa secrets payload sig := rfl

/-- Dispatch of `validate` for the literal provider name `tribute`. -/
theorem validate_dispatch_tribute (secrets : String → Option String)
    (payload : JsonObj) (sig : String) (now : ℤ) :
    validate secrets "tribute" payload sig now = validate_tribute secrets payload sig := rfl

/-- Dispatch of `validate` for the literal provider name `stars`. -/
theorem validate_dispatch_stars (secrets : String → Option String)
    (payload : JsonObj) (sig : String) (now : ℤ) :
    validate secrets "stars" payload sig now = validate_stars secrets payload sig := rfl

/-- Dispatch of `validate` for the literal provider name `panel`. -/
theorem validate_dispatch_panel (secrets : String → Option String)
    (payload : JsonObj) (sig : String) (now : ℤ) :
    validate secrets "panel" payload sig now = validate_panel secrets payload sig now := rfl

end ValidatorDispatch

/-- C5 as stated is false at FreeKassa: the correct MD5 signature of the
counterexample payload is `5b2d21daf67126db9ed72637429c5b89`, and the
signature obtained by changing its single second byte from `b` to `B`
still validates, because `validate_freekassa` lowercases both sides. -/
theorem c5_counterexample :
    freekassaSignature "s" (Json.str "1") (Json.str "100") (Json.str "7")
      = "5b2d21daf67126db9ed72637429c5b89"
    ∧ validate fkSecrets "freekassa" fkPayload "5b2d21daf67126db9ed72637429c5b89" 0 = true
    ∧ validate fkSecrets "freekassa" fkPayload "5B2d21daf67126db9ed72637429c5b89" 0 = true
    ∧ "5B2d21daf67126db9ed72637429c5b89" ≠ "5b2d21daf67126db9ed72637429c5b89" := by
  refine ⟨by decide, by decide, by decide, by decide⟩

/-- C5 amended: for each of the six providers, signing exactly as the
documented recipe prescribes validates; for yookassa, cryptopay, tribute,
stars and panel every other signature string (in particular one with any
single byte changed) is rejected; for freekassa the comparison is
case-insensitive, so a changed signature still validates exactly when its
lowercasing is unchanged, and is rejected otherwise. -/
theorem c5_roundtrip_and_flip (secrets : String → Option String)
    (payload : JsonObj) (sig : String) (now : ℤ) :
    (∀ secret ev okvs oid,
      secrets "yookassa" = some secret → secret ≠ "" →
      pget payload "event" = some ev → truthy ev = true →
      pget payload "object" = some (Json.obj okvs) →
      pget okvs "id" = some oid → truthy oid = true →
      validate secrets "yookassa" payload (yookassaSignature secret ev oid) now = true
      ∧ (sig ≠ yookassaSignature secret ev oid →
         validate secrets "yookassa" payload sig now = false))
    ∧ (∀ secret,
      secrets "cryptopay" = some secret → secret ≠ "" →
      (tsOkay payload now = true →
        validate secrets "cryptopay" payload (canonicalBodySignature secret payload) now = true)
      ∧ (sig ≠ canonicalBodySignature secret payload →
         validate secrets "cryptopay" payload sig now = false))
    ∧ (∀ secret mid amount oid,
      secrets "freekassa" = some secret → secret ≠ "" →
      pget payload "MERCHANT_ID" = some mid → truthy mid = true →
      pget payload "AMOUNT" = some amount → truthy amount = true →
      pget payload "MERCHANT_ORDER_ID" = some oid → truthy oid = true →
      validate secrets "freekassa" payload
        (freekassaSignature secret mid amount oid) now = true
      ∧ (pyLower sig = pyLower (freekassaSignature secret mid amount oid) →
         validate secrets "freekassa" payload sig now = true)
      ∧ (pyLower sig ≠ pyLower (freekassaSignature secret mid amount oid) →
         validate secrets "freekassa" payload sig now = false))
    ∧ (∀ secret,
      secrets "tribute" = some secret → secret ≠ "" →
      validate secrets "tribute" payload (canonicalBodySignature secret payload) now = true
      ∧ (sig ≠ canonicalBodySignature secret payload →
         validate secrets "tribute" payload sig now = false))
    ∧ (∀ secret,
      secrets "stars" = some secret → secret ≠ "" →
      validate secrets "stars" payload secret now = true
      ∧ (sig ≠ secret → validate secrets "stars" payload sig now = false))
    ∧ (∀ secret,
      secrets "panel" = some secret → secret ≠ "" →
      (tsOkay payload now = true →
        validate secrets "panel" payload (canonicalBodySignature secret payload) now = true)
      ∧ (sig ≠ canonicalBodySignature secret payload →
         validate secrets "panel" payload sig now = false)) := by
  refine ⟨?_, ?_, ?_, ?_, ?_, ?_⟩
  · intro secret ev okvs oid hsec hne hev htev hobj hoid htoid
    simp only [validate_dispatch_yookassa]
    simp only [validate_yookassa, hsec, hev, hobj, hoid, Option.getD_some]
    constructor
    · simp [hne, htev, htoid, compare_digest, yookassaSignature]
    · intro hs
      simp [hne, htev, htoid, compare_digest, yookassaSignature] at hs ⊢
      exact hs
  · intro secret hsec hne
    simp only [validate_dispatch_cryptopay]
    simp only [validate_cryptopay, hsec]
    constructor
    · intro hts
      simp [hne, compare_digest, canonicalBodySignature, hts]
    · intro hs
      simp [hne, compare_digest, canonicalBodySignature] at hs ⊢
      simp [hs]
  · intro secret mid amount oid hsec hne hmid htmid ham htam hoid htoid
    simp only [validate_dispatch_freekassa]
    simp only [validate_freekassa, hsec, hmid, ham, hoid, Option.getD_some]
    refine ⟨?_, ?_, ?_⟩
    · simp [hne, htmid, htam, htoid, compare_digest, freekassaSignature]
    · intro hs
      simp [hne, htmid, htam, htoid, compare_digest, freekassaSignature] at hs ⊢
      exact hs
    · intro hs
      simp [hne, htmid, htam, htoid, compare_digest, freekassaSignature] at hs ⊢
      exact hs
  · intro secret hsec hne
    simp only [validate_dispatch_tribute]
    simp only [validate_tribute, hsec]
    constructor
    · simp [hne, compare_digest, canonicalBodySignature]
    · intro hs
      simp [hne, compare_digest, canonicalBodySignature] at hs ⊢
      exact hs
  · intro secret hsec hne
    simp only [validate_dispatch_stars]
    simp only [validate_stars, hsec]
    constructor
    · simp [hne, compare_digest]
    · intro hs
      simp [hne, compare_digest]
      exact hs
  · intro secret hsec hne
    simp only [validate_dispatch_panel]
    simp only [validate_panel, hsec]
    constructor
    · intro hts
      simp [hne, compare_digest, canonicalBodySignature, hts]
    · intro hs
      simp [hne, compare_digest, canonicalBodySignature] at hs ⊢
      simp [hs]

/-- Witness for the amended C5: each provider accepts its recipe-computed
signature and rejects the empty (hence changed) signature at concrete
secrets and payloads. -/
theorem c5_roundtrip_and_flip_witness :
    validate allSecrets "yookassa" ykPayload
      (yookassaSignature "ys" (Json.str "payment.succeeded") (Json.str "42")) 0 = true
    ∧ validate allSecrets "yookassa" ykPayload "" 0 = false
    ∧ validate allSecrets "cryptopay" JsonObj.nil
      (canonicalBodySignature "cs" JsonObj.nil) 0 = true
    ∧ validate allSecrets "cryptopay" JsonObj.nil "" 0 = false
    ∧ validate allSecrets "freekassa" fkPayload
      (freekassaSignature "fs" (Json.str "1") (Json.str "100") (Json.str "7")) 0 = true
    ∧ validate allSecrets "freekassa" fkPayload "" 0 = false
    ∧ validate allSecrets "tribute" JsonObj.nil
      (canonicalBodySignature "ts" JsonObj.nil) 0 = true
    ∧ validate allSecrets "tribute" JsonObj.nil "" 0 = false
    ∧ validate allSecrets "stars" JsonObj.nil "ss" 0 = true
    ∧ validate allSecrets "stars" JsonObj.nil "" 0 = false
    ∧ validate allSecrets "panel" JsonObj.nil
      (canonicalBodySignature "ps" JsonObj.nil) 0 = true
    ∧ validate allSecrets "panel" JsonObj.nil "" 0 = false := by
  have hyk := (c5_roundtrip_and_flip allSecrets ykPayload "" 0).1 "ys"
    (Json.str "payment.succeeded")
    (JsonObj.cons "id" (Json.str "42") JsonObj.nil) (Json.str "42")
    rfl (by decide) rfl (by decide) rfl rfl (by decide)
  have hcp := (c5_roundtrip_and_flip allSecrets JsonObj.nil "" 0).2.1 "cs" rfl (by decide)
  have hfk := (c5_roundtrip_and_flip allSecrets fkPayload "" 0).2.2.1 "fs"
    (Json.str "1") (Json.str "100") (Json.str "7")
    rfl (by decide) rfl (by decide) rfl (by decide) rfl (by decide)
  have htr := (c5_roundtrip_and_flip allSecrets JsonObj.nil "" 0).2.2.2.1 "ts" rfl (by decide)
  have hst := (c5_roundtrip_and_flip allSecrets JsonObj.nil "" 0).2.2.2.2.1 "ss" rfl (by decide)
  have hpn := (c5_roundtrip_and_flip allSecrets JsonObj.nil "" 0).2.2.2.2.2 "ps" rfl (by decide)
  exact ⟨hyk.1, hyk.2 (by decide), hcp.1 (by decide), hcp.2 (by decide),
    hfk.1, hfk.2.2 (by decide), htr.1, htr.2 (by decide),
    hst.1, hst.2 (by decide), hpn.1 (by decide), hpn.2 (by decide)⟩

/-- C6: `validate` rejects — for every payload and signature — whenever the
provider's secret is unconfigured (absent or empty), whenever the provider
identifier is unknown after lowercasing, and whenever the payload lacks a
field that the scheme's message construction needs (yookassa's `event` and
`object.id`, including a non-object `object`; freekassa's `MERCHANT_ID`,
`AMOUNT` and `MERCHANT_ORDER_ID`). -/
theorem c6_reject_on_bad_config_or_payload (secrets : String → Option String)
    (payload : JsonObj) (sig : String) (now : ℤ) :
    ((secrets "yookassa" = none ∨ secrets "yookassa" = some "") →
      validate secrets "yookassa" payload sig now = false)
    ∧ ((secrets "cryptopay" = none ∨ secrets "cryptopay" = some "") →
      validate secrets "cryptopay" payload sig now = false)
    ∧ ((secrets "freekassa" = none ∨ secrets "freekassa" = some "") →
      validate secrets "freekassa" payload sig now = false)
    ∧ ((secrets "tribute" = none ∨ secrets "tribute" = some "") →
      validate secrets "tribute" payload sig now = false)
    ∧ ((secrets "stars" = none ∨ secrets "stars" = some "") →
      validate secrets "stars" payload sig now = false)
    ∧ ((secrets "panel" = none ∨ secrets "panel" = some "") →
      validate secrets "panel" payload sig now = false)
    ∧ (∀ provider : String,
        pyLower provider ≠ "yookassa" → pyLower provider ≠ "cryptopay" →
        pyLower provider ≠ "freekassa" → pyLower provider ≠ "tribute" →
        pyLower provider ≠ "stars" → pyLower provider ≠ "panel" →
        validate secrets provider payload sig now = false)
    ∧ (truthy ((pget payload "event").getD Json.null) = false →
        validate secrets "yookassa" payload sig now = false)
    ∧ (∀ okvs, pget payload "object" = some (Json.obj okvs) →
        truthy ((pget okvs "id").getD Json.null) = false →
        validate secrets "yookassa" payload sig now = false)
    ∧ (∀ j, pget payload "object" = some j → (∀ okvs, j ≠ Json.obj okvs) →
        validate secrets "yookassa" payload sig now = false)
    ∧ ((truthy ((pget payload "MERCHANT_ID").getD Json.null) = false
        ∨ truthy ((pget payload "AMOUNT").getD Json.null) = false
        ∨ truthy ((pget payload "MERCHANT_ORDER_ID").getD Json.null) = false) →
        validate secrets "freekassa" payload sig now = false) := by
  refine ⟨?_, ?_, ?_, ?_, ?_, ?_, ?_, ?_, ?_, ?_, ?_⟩
  · rintro (h | h) <;> simp [validate_dispatch_yookassa, validate_yookassa, h]
  · rintro (h | h) <;> simp [validate_dispatch_cryptopay, validate_cryptopay, h]
  · rintro (h | h) <;> simp [validate_dispatch_freekassa, validate_freekassa, h]
  · rintro (h | h) <;> simp [validate_dispatch_tribute, validate_tribute, h]
  · rintro (h | h) <;> simp [validate_dispatch_stars, validate_stars, h]
  · rintro (h | h) <;> simp [validate_dispatch_panel, validate_panel, h]
  · intro provider h1 h2 h3 h4 h5 h6
    simp [validate, h1, h2, h3, h4, h5, h6]
  · intro hev
    simp only [validate_dispatch_yookassa, validate_yookassa]
    cases hsec : secrets "yookassa" with
    | none => rfl
    | some secret =>
      by_cases hse : secret = ""
      · simp [hse]
      · rcases hobj : (pget payload "object").getD (Json.obj JsonObj.nil) with
          _ | b | n | s2 | xs | okvs <;> simp [hse, hev]
  · intro okvs hobj hid
    simp only [validate_dispatch_yookassa, validate_yookassa]
    cases hsec : secrets "yookassa" with
    | none => rfl
    | some secret =>
      by_cases hse : secret = ""
      · simp [hse]
      · simp [hse, hobj, hid]
  · intro j hobj hnotobj
    simp only [validate_dispatch_yookassa, validate_yookassa]
    cases hsec : secrets "yookassa" with
    | none => rfl
    | some secret =>
      by_cases hse : secret = ""
      · simp [hse]
      · rcases j with _ | b | n | s2 | xs | okvs
        · simp [hse, hobj]
        · simp [hse, hobj]
        · simp [hse, hobj]
        · simp [hse, hobj]
        · simp [hse, hobj]
        · exact absurd rfl (hnotobj okvs)
  · intro hfield
    simp only [validate_dispatch_freekassa, validate_freekassa]
    cases hsec : secrets "freekassa" with
    | none => rfl
    | some secret =>
      by_cases hse : secret = ""
      · simp [hse]
      · rcases hfield with h | h | h <;> simp [hse, h]

/-- Witness for C6: an empty secret table rejects a correct-looking call, a
mixed-case unknown provider is rejected, and payloads missing the needed
fields are rejected under configured secrets. -/
theorem c6_reject_on_bad_config_or_payload_witness :
    validate (fun _ => none) "yookassa" ykPayload "x" 0 = false
    ∧ validate allSecrets "PayPal" ykPayload "x" 0 = false
    ∧ validate allSecrets "yookassa" JsonObj.nil "x" 0 = false
    ∧ validate allSecrets "freekassa" JsonObj.nil "x" 0 = false := by
  refine ⟨(c6_reject_on_bad_config_or_payload (fun _ => none) ykPayload "x" 0).1
      (Or.inl rfl), ?_, ?_, ?_⟩
  · exact (c6_reject_on_bad_config_or_payload allSecrets ykPayload "x" 0).2.2.2.2.2.2.1
      "PayPal" (by decide) (by decide) (by decide) (by decide) (by decide) (by decide)
  · exact (c6_reject_on_bad_config_or_payload allSecrets JsonObj.nil "x" 0).2.2.2.2.2.2.2.1
      (by decide)
  · exact (c6_reject_on_bad_config_or_payload allSecrets JsonObj.nil "x"
      0).2.2.2.2.2.2.2.2.2.2 (Or.inl (by decide))

/-- C7: for the replay-checked providers (cryptopay, panel) with the
default 300-second window: a payload carrying a timestamp more than 300
seconds from `now` is rejected whatever the signature; a signature that is
not the recipe's HMAC is rejected whatever the timestamp; and when the
signature matches, the verdict is exactly the timestamp check — the replay
check runs only after the signature comparison passes. -/
theorem c7_replay_window_after_signature (secrets : String → Option String)
    (payload : JsonObj) (sig : String) (now : ℤ) :
    replay_window = 300
    ∧ (∀ v t, pget payload "timestamp" = some v → jsonIntValue v = some t →
        300 < (now - t).natAbs →
        validate secrets "cryptopay" payload sig now = false
        ∧ validate secrets "panel" payload sig now = false)
    ∧ (∀ secret, secrets "cryptopay" = some secret →
        sig ≠ canonicalBodySignature secret payload →
        validate secrets "cryptopay" payload sig now = false)
    ∧ (∀ secret, secrets "panel" = some secret →
        sig ≠ canonicalBodySignature secret payload →
        validate secrets "panel" payload sig now = false)
    ∧ (∀ secret, secrets "cryptopay" = some secret → secret ≠ "" →
        sig = canonicalBodySignature secret payload →
        validate secrets "cryptopay" payload sig now = tsOkay payload now)
    ∧ (∀ secret, secrets "panel" = some secret → secret ≠ "" →
        sig = canonicalBodySignature secret payload →
        validate secrets "panel" payload sig now = tsOkay payload now) := by
  have hts : ∀ v t, pget payload "timestamp" = some v → jsonIntValue v = some t →
      300 < (now - t).natAbs → tsOkay payload now = false := by
    intro v t hv hint hstale
    simp only [tsOkay, hv, hint, check_timestamp, replay_window]
    simp
    omega
  refine ⟨rfl, ?_, ?_, ?_, ?_, ?_⟩
  · intro v t hv hint hstale
    constructor
    · simp only [validate_dispatch_cryptopay, validate_cryptopay]
      cases hsec : secrets "cryptopay" with
      | none => rfl
      | some secret =>
        by_cases hse : secret = ""
        · simp [hse]
        · by_cases hc : compare_digest sig
            (hmacSha256Hex (strBytes secret) (strBytes (dumps (Json.obj payload))))
          · simp [hse, hc, hts v t hv hint hstale]
          · simp [hse, hc]
    · simp only [validate_dispatch_panel, validate_panel]
      cases hsec : secrets "panel" with
      | none => rfl
      | some secret =>
        by_cases hse : secret = ""
        · simp [hse]
        · by_cases hc : compare_digest sig
            (hmacSha256Hex (strBytes secret) (strBytes (dumps (Json.obj payload))))
          · simp [hse, hc, hts v t hv hint hstale]
          · simp [hse, hc]
  · intro secret hsec hne
    simp only [validate_dispatch_cryptopay, validate_cryptopay, hsec]
    by_cases hse : secret = ""
    · simp [hse]
    · simp [hse, compare_digest, canonicalBodySignature] at hne ⊢
      simp [hne]
  · intro secret hsec hne
    simp only [validate_dispatch_panel, validate_panel, hsec]
    by_cases hse : secret = ""
    · simp [hse]
    · simp [hse, compare_digest, canonicalBodySignature] at hne ⊢
      simp [hne]
  · intro secret hsec hse hsig
    simp only [validate_dispatch_cryptopay, validate_cryptopay, hsec]
    simp [hse, hsig, compare_digest, canonicalBodySignature]
  · intro secret hsec hse hsig
    simp only [validate_dispatch_panel, validate_panel, hsec]
    simp [hse, hsig, compare_digest, canonicalBodySignature]

/-- Witness for C7: a stale timestamp (now = 2000, timestamp = 1000) is
rejected for both providers even under a correct signature; a wrong
signature is rejected; and a correct signature with a fresh timestamp
(now = 150, timestamp = 100) validates. -/
theorem c7_replay_window_after_signature_witness :
    validate allSecrets "cryptopay" (tsPayload 1000)
      (canonicalBodySignature "cs" (tsPayload 1000)) 2000 = false
    ∧ validate allSecrets "panel" (tsPayload 1000)
      (canonicalBodySignature "ps" (tsPayload 1000)) 2000 = false
    ∧ validate allSecrets "cryptopay" (tsPayload 1000) "" 2000 = false
    ∧ validate allSecrets "cryptopay" (tsPayload 100)
      (canonicalBodySignature "cs" (tsPayload 100)) 150 = true := by
  have h1 := (c7_replay_window_after_signature allSecrets (tsPayload 1000)
    (canonicalBodySignature "cs" (tsPayload 1000)) 2000).2.1
    (Json.num 1000) 1000 rfl rfl (by decide)
  have h2 := (c7_replay_window_after_signature allSecrets (tsPayload 1000)
    (canonicalBodySignature "ps" (tsPayload 1000)) 2000).2.1
    (Json.num 1000) 1000 rfl rfl (by decide)
  have h3 := (c7_replay_window_after_signature allSecrets (tsPayload 1000)
    "" 2000).2.2.1 "cs" rfl (by decide)
  have h4 := (c7_replay_window_after_signature allSecrets (tsPayload 100)
    (canonicalBodySignature "cs" (tsPayload 100)) 150).2.2.2.2.1 "cs" rfl (by decide) rfl
  exact ⟨h1.1, h2.2, h3, h4.trans (by decide)⟩

section IPBounds

/-- A parsed octet is at most 255. -/
theorem parseOctet_le (l : List Char) (v : ℕ) (h : parseOctet l = some v) : v ≤ 255 := by
  unfold parseOctet at h
  split_ifs at h
  cases hd : parseDecDigits l 0 with
  | none => rw [hd] at h; simp at h
  | some w =>
    rw [hd] at h
    by_cases hw : w ≤ 255
    · simp [hw] at h
      omega
    · simp [hw] at h

/-- A hexadecimal digit value is at most 15. -/
theorem hexVal_le (c : Char) (d : ℕ) (h : hexVal c = some d) : d ≤ 15 := by
  unfold hexVal at h
  split_ifs at h with h1 h2 h3 <;> simp at h <;> omega

/-- Accumulated hexadecimal parsing stays below `(acc + 1) * 16 ^ length`. -/
theorem parseHexDigits_lt (l : List Char) :
    ∀ acc v : ℕ, parseHexDigits l acc = some v → v < (acc + 1) * 16 ^ l.length := by
  induction l with
  | nil =>
    intro acc v h
    simp [parseHexDigits] at h
    simp only [List.length_nil, pow_zero, mul_one]
    omega
  | cons c t ih =>
    intro acc v h
    simp only [parseHexDigits] at h
    cases hd : hexVal c with
    | none => rw [hd] at h; simp at h
    | some d =>
      rw [hd] at h
      have hb := ih (acc * 16 + d) v h
      have hdle := hexVal_le c d hd
      calc v < (acc * 16 + d + 1) * 16 ^ t.length := hb
        _ ≤ ((acc + 1) * 16) * 16 ^ t.length :=
          Nat.mul_le_mul_right _ (by omega)
        _ = (acc + 1) * 16 ^ (c :: t).length := by
          simp [List.length_cons, pow_succ]
          ring

/-- A parsed IPv6 group is below `2 ^ 16`. -/
theorem parseHexGroup_lt (l : List Char) (v : ℕ) (h : parseHexGroup l = some v) :
    v < 65536 := by
  unfold parseHexGroup at h
  split_ifs at h with h1 h2
  have hb := parseHexDigits_lt l 0 v h
  have hp : (16 : ℕ) ^ l.length ≤ 16 ^ 4 :=
    Nat.pow_le_pow_right (by norm_num) (by omega)
  simp at hb
  omega

/-- Every group parsed from a colon-split list is below `2 ^ 16`. -/
theorem parseGroups_lt (parts : List (List Char)) :
    ∀ gs, parseGroups parts = some gs → ∀ g ∈ gs, g < 65536 := by
  induction parts with
  | nil =>
    intro gs h
    simp [parseGroups] at h
    intro g hg
    rw [h] at hg
    simp at hg
  | cons p t ih =>
    intro gs h
    simp only [parseGroups] at h
    cases hv : parseHexGroup p with
    | none => rw [hv] at h; simp at h
    | some v =>
      cases hvs : parseGroups t with
      | none => rw [hv, hvs] at h; simp at h
      | some vs =>
        rw [hv, hvs] at h
        simp at h
        intro g hg
        rw [← h] at hg
        rcases List.mem_cons.mp hg with hgv | hgvs
        · rw [hgv]; exact parseHexGroup_lt p v hv
        · exact ih vs hvs g hgvs

/-- Folding 16-bit groups stays below `(acc + 1) * 65536 ^ length`. -/
theorem foldl_groups_lt (gs : List ℕ) :
    ∀ acc : ℕ, (∀ g ∈ gs, g < 65536) →
      gs.foldl (fun acc g => acc * 65536 + g) acc < (acc + 1) * 65536 ^ gs.length := by
  induction gs with
  | nil =>
    intro acc _
    simp only [List.foldl_nil, List.length_nil, pow_zero, mul_one]
    omega
  | cons g t ih =>
    intro acc hall
    have hg : g < 65536 := hall g (List.mem_cons_self g t)
    have hb := ih (acc * 65536 + g) (fun x hx => hall x (List.mem_cons_of_mem g hx))
    simp only [List.foldl_cons]
    calc t.foldl (fun acc g => acc * 65536 + g) (acc * 65536 + g)
        < (acc * 65536 + g + 1) * 65536 ^ t.length := hb
      _ ≤ ((acc + 1) * 65536) * 65536 ^ t.length :=
          Nat.mul_le_mul_right _ (by omega)
      _ = (acc + 1) * 65536 ^ (g :: t).length := by
          simp [List.length_cons, pow_succ]
          ring

/-- Eight bounded groups combine to an integer below `2 ^ 128`. -/
theorem combineGroups_lt (gs : List ℕ) (hall : ∀ g ∈ gs, g < 65536)
    (hlen : gs.length = 8) :
    combineGroups gs < 340282366920938463463374607431768211456 := by
  have := foldl_groups_lt gs 0 hall
  rw [hlen] at this
  unfold combineGroups
  norm_num at this
  exact this

/-- Bound side of the optional group parse used around `::`. -/
theorem optGroups_lt (l : List Char) (a : List ℕ)
    (h : (if l.isEmpty then some [] else parseGroups (splitChar ':' l)) = some a) :
    ∀ g ∈ a, g < 65536 := by
  by_cases hl : l.isEmpty
  · simp [hl] at h
    intro g hg
    rw [h] at hg
    simp at hg
  · simp [hl] at h
    exact parseGroups_lt _ a h

/-- A parsed IPv4 address is below `2 ^ 32`. -/
theorem ip_address_v4_lt (s : String) (n : ℕ) (h : ip_address_v4 s = some n) :
    n < 4294967296 := by
  unfold ip_address_v4 at h
  split at h
  · rename_i a b c d heq
    cases hx : parseOctet a with
    | none => rw [hx] at h; simp at h
    | some x =>
      cases hy : parseOctet b with
      | none => rw [hx, hy] at h; simp at h
      | some y =>
        cases hz : parseOctet c with
        | none => rw [hx, hy, hz] at h; simp at h
        | some z =>
          cases hw : parseOctet d with
          | none => rw [hx, hy, hz, hw] at h; simp at h
          | some w =>
            rw [hx, hy, hz, hw] at h
            simp at h
            have bx := parseOctet_le a x hx
            have by2 := parseOctet_le b y hy
            have bz := parseOctet_le c z hz
            have bw := parseOctet_le d w hw
            omega
  · simp at h

/-- Every group parsed with a possible embedded IPv4 tail is below
`2 ^ 16`. -/
theorem parseGroupsTail_lt (parts : List (List Char)) :
    ∀ gs, parseGroupsTail parts = some gs → ∀ g ∈ gs, g < 65536 := by
  induction parts with
  | nil =>
    intro gs h
    simp [parseGroupsTail] at h
    intro g hg
    rw [h] at hg
    simp at hg
  | cons p t ih =>
    intro gs h
    cases t with
    | nil =>
      simp only [parseGroupsTail] at h
      by_cases hd : p.contains '.'
      · rw [if_pos hd] at h
        cases hv : ip_address_v4 (String.mk p) with
        | none => rw [hv] at h; simp at h
        | some v =>
          rw [hv] at h
          simp at h
          intro g hg
          rw [← h] at hg
          have hhi : (v >>> 16) &&& 65535 < 65536 :=
            Nat.lt_succ_of_le Nat.and_le_right
          have hlo : v &&& 65535 < 65536 := Nat.lt_succ_of_le Nat.and_le_right
          rcases List.mem_cons.mp hg with hg1 | hg2
          · rw [hg1]; exact hhi
          · rw [List.mem_singleton.mp hg2]; exact hlo
      · rw [if_neg hd] at h
        cases hv : parseHexGroup p with
        | none => rw [hv] at h; simp at h
        | some v =>
          rw [hv] at h
          simp at h
          intro g hg
          rw [← h] at hg
          rw [List.mem_singleton.mp hg]
          exact parseHexGroup_lt p v hv
    | cons q r =>
      simp only [parseGroupsTail] at h
      cases hv : parseHexGroup p with
      | none => rw [hv] at h; simp at h
      | some v =>
        cases hvs : parseGroupsTail (q :: r) with
        | none => rw [hv, hvs] at h; simp at h
        | some vs =>
          rw [hv, hvs] at h
          simp at h
          intro g hg
          rw [← h] at hg
          rcases List.mem_cons.mp hg with hg1 | hg2
          · rw [hg1]; exact parseHexGroup_lt p v hv
          · exact ih vs hvs g hg2

/-- Bound side of the optional tail-group parse used right of `::`. -/
theorem optGroupsTail_lt (l : List Char) (b : List ℕ)
    (h : (if l.isEmpty then some [] else parseGroupsTail (splitChar ':' l)) = some b) :
    ∀ g ∈ b, g < 65536 := by
  by_cases hl : l.isEmpty
  · simp [hl] at h
    intro g hg
    rw [h] at hg
    simp at hg
  · simp [hl] at h
    exact parseGroupsTail_lt _ b h

/-- A parsed IPv6 address is below `2 ^ 128`. -/
theorem ip_address_v6_lt (s : String) (n : ℕ) (h : ip_address_v6 s = some n) :
    n < 340282366920938463463374607431768211456 := by
  unfold ip_address_v6 at h
  split at h
  · simp at h
  · rename_i addr hzone
    split at h
    · cases hg : parseGroupsTail (splitChar ':' addr) with
      | none => rw [hg] at h; simp at h
      | some gs =>
        rw [hg] at h
        by_cases hlen : gs.length = 8
        · simp [hlen] at h
          rw [← h]
          exact combineGroups_lt gs (parseGroupsTail_lt _ gs hg) hlen
        · simp [hlen] at h
    · rename_i lft rgt heq
      by_cases hdc : (breakDoubleColon rgt).isSome
      · rw [if_pos hdc] at h
        simp at h
      · rw [if_neg hdc] at h
        cases ha : (if lft.isEmpty then some [] else parseGroups (splitChar ':' lft)) with
        | none => rw [ha] at h; simp at h
        | some a =>
          cases hb : (if rgt.isEmpty then some [] else parseGroupsTail (splitChar ':' rgt)) with
          | none => rw [ha, hb] at h; simp at h
          | some b =>
            rw [ha, hb] at h
            by_cases hle : a.length + b.length ≤ 7
            · simp [hle] at h
              rw [← h]
              refine combineGroups_lt _ ?_ ?_
              · intro g hg
                rcases List.mem_append.mp hg with hg1 | hg2
                · exact optGroups_lt lft a ha g hg1
                · rcases List.mem_append.mp hg2 with hg3 | hg4
                  · rw [List.eq_of_mem_replicate hg3]
                    norm_num
                  · exact optGroupsTail_lt rgt b hb g hg4
              · simp [List.length_append, List.length_replicate]
                omega
            · simp [hle] at h

/-- Version-separated bounds for `ip_address`. -/
theorem ip_address_lt (s : String) :
    (∀ n, ip_address s = some (IPAddr.v4 n) → n < 4294967296)
    ∧ (∀ n, ip_address s = some (IPAddr.v6 n) → n < 340282366920938463463374607431768211456) := by
  constructor <;> intro n h <;> unfold ip_address at h
  · cases h4 : ip_address_v4 s with
    | some m =>
      rw [h4] at h
      simp at h
      rw [← h]
      exact ip_address_v4_lt s m h4
    | none =>
      rw [h4] at h
      cases h6 : ip_address_v6 s with
      | some m => rw [h6] at h; simp at h
      | none => rw [h6] at h; simp at h
  · cases h4 : ip_address_v4 s with
    | some m => rw [h4] at h; simp at h
    | none =>
      rw [h4] at h
      cases h6 : ip_address_v6 s with
      | some m =>
        rw [h6] at h
        simp at h
        rw [← h]
        exact ip_address_v6_lt s m h6
      | none => rw [h6] at h; simp at h

/-- A below-range IPv4 address lies in `0.0.0.0/0`. -/
theorem ipInNet_univ_v4 (n : ℕ) (hn : n < 4294967296) :
    ipInNet (IPAddr.v4 n) (IPNet.v4 0 0) = true := by
  simp only [ipInNet, Nat.sub_zero, decide_eq_true_eq]
  have h32 : n >>> 32 = 0 := by
    rw [Nat.shiftRight_eq_div_pow]
    exact Nat.div_eq_of_lt (by norm_num; omega)
  simp [h32]

/-- A below-range IPv6 address lies in `::/0`. -/
theorem ipInNet_univ_v6 (n : ℕ) (hn : n < 340282366920938463463374607431768211456) :
    ipInNet (IPAddr.v6 n) (IPNet.v6 0 0) = true := by
  simp only [ipInNet, Nat.sub_zero, decide_eq_true_eq]
  have h128 : n >>> 128 = 0 := by
    rw [Nat.shiftRight_eq_div_pow]
    exact Nat.div_eq_of_lt (by norm_num; omega)
  simp [h128]

/-- Reading back the whitelist entry just written. -/
theorem wlGet_wlSet_self (w : List (String × List IPNet)) (p : String)
    (v : List IPNet) : wlGet (wlSet w p v) p = some v := by
  induction w with
  | nil => simp [wlSet, wlGet]
  | cons h t ih =>
    obtain ⟨k, w2⟩ := h
    by_cases hk : k = p
    · simp [wlSet, wlGet, hk]
    · simp [wlSet, wlGet, hk, ih]

end IPBounds

/-- C9: `is_allowed` is true exactly when the provider has a whitelist, the
address parses, and some configured network contains it; on the default
configuration yookassa admits `185.71.76.5` (inside `185.71.76.0/27`) and
rejects `8.8.8.8`; and a whitelist containing the universal networks
`0.0.0.0/0` and `::/0` — the representation `disable_whitelist` installs
instead of any boolean bypass flag — admits every address that parses. -/
theorem c9_ip_allowlist (wl : IPWhitelist) (provider addr : String) :
    (is_allowed wl provider addr = true ↔
      ∃ nets, wlGet wl.whitelists provider = some nets
        ∧ ∃ ip, ip_address addr = some ip ∧ ∃ net ∈ nets, ipInNet ip net = true)
    ∧ is_allowed defaultIPWhitelist "yookassa" "185.71.76.5" = true
    ∧ is_allowed defaultIPWhitelist "yookassa" "8.8.8.8" = false
    ∧ (∀ nets, wlGet wl.whitelists provider = some nets →
        IPNet.v4 0 0 ∈ nets → IPNet.v6 0 0 ∈ nets →
        ∀ ip, ip_address addr = some ip → is_allowed wl provider addr = true)
    ∧ (∀ p2, is_allowed (disable_whitelist wl p2).2 p2 addr = (ip_address addr).isSome) := by
  refine ⟨?_, by decide, by decide, ?_, ?_⟩
  · unfold is_allowed
    cases hget : wlGet wl.whitelists provider with
    | none => simp
    | some nets =>
      cases hip : ip_address addr with
      | none => simp
      | some ip => simp [List.any_eq_true]
  · intro nets hget h4 h6 ip hip
    unfold is_allowed
    rw [hget, hip]
    cases ip with
    | v4 n =>
      have hb := (ip_address_lt addr).1 n hip
      simp only [List.any_eq_true]
      exact ⟨IPNet.v4 0 0, h4, ipInNet_univ_v4 n hb⟩
    | v6 n =>
      have hb := (ip_address_lt addr).2 n hip
      simp only [List.any_eq_true]
      exact ⟨IPNet.v6 0 0, h6, ipInNet_univ_v6 n hb⟩
  · intro p2
    show is_allowed ⟨wlSet wl.whitelists p2 [IPNet.v4 0 0, IPNet.v6 0 0]⟩ p2 addr
      = (ip_address addr).isSome
    unfold is_allowed
    rw [wlGet_wlSet_self]
    cases hip : ip_address addr with
    | none => simp
    | some ip =>
      cases ip with
      | v4 n =>
        have hb := (ip_address_lt addr).1 n hip
        simp [List.any_eq_true]
        exact Or.inl (by simpa using ipInNet_univ_v4 n hb)
      | v6 n =>
        have hb := (ip_address_lt addr).2 n hip
        simp [List.any_eq_true]
        exact Or.inr (by simpa using ipInNet_univ_v6 n hb)

/-- Witness for C9: a whitelist holding both universal networks admits
`8.8.8.8`, and after `disable_whitelist` freekassa admits both the local
address `::1` and the IPv4-mapped form `::ffff:8.8.8.8`. -/
theorem c9_ip_allowlist_witness :
    is_allowed ⟨[("p", [IPNet.v4 0 0, IPNet.v6 0 0])]⟩ "p" "8.8.8.8" = true
    ∧ is_allowed (disable_whitelist defaultIPWhitelist "freekassa").2 "freekassa" "::1"
      = true
    ∧ is_allowed (disable_whitelist defaultIPWhitelist "freekassa").2 "freekassa"
      "::ffff:8.8.8.8" = true := by
  have h1 := (c9_ip_allowlist ⟨[("p", [IPNet.v4 0 0, IPNet.v6 0 0])]⟩ "p" "8.8.8.8").2.2.2.1
    [IPNet.v4 0 0, IPNet.v6 0 0] rfl (by decide) (by decide)
    (IPAddr.v4 134744072) (by decide)
  have h2 := (c9_ip_allowlist defaultIPWhitelist "freekassa" "::1").2.2.2.2 "freekassa"
  have h3 := (c9_ip_allowlist defaultIPWhitelist "freekassa" "::ffff:8.8.8.8").2.2.2.2
    "freekassa"
  exact ⟨h1, h2.trans (by decide), h3.trans (by decide)⟩
